import Mathlib

/-!
# Wii SD-slot driver (`libios/source/wiisd.c`): embedding and verified properties

The driver is a C module with five file-level variables and a set of functions
that talk to the IOS storage service through `os_open`, `os_close`, `os_ioctl`
and `os_ioctlv`.  The embedding is a state-passing translation:

* `Session` holds the five file-level variables.
* `World` holds the session, the chronological log of externally visible
  events (`trace`), the stream of replies the storage service will give to the
  IPC calls still to come (`ora`), and the stream of values the hardware tick
  counter will show on the reads still to come (`timer`).  Service and counter
  are arbitrary environments: the theorems quantify over `ora` and `timer`.
* a C function `f(args)` that cannot spin becomes `f args : World → result × World`.
* `udelay` spins on the tick counter until it passes a target, so it may never
  return.  `udelay` and the functions that can reach it (`__sdio_waithcr`,
  `__sd0_initio`, `sdio_Startup`) take a spin budget `fuel`, the number of
  counter reads one `udelay` call may spend in its loop, and yield a `Run`:
  `Run.done result world` when the call returned, `Run.spinning world` when a
  `udelay` used up its budget while still spinning, with the world at that point.
  A call that is `spinning` for every budget never returns.

Machine integers: `u8`/`u16`/`u32` values are `Nat`, `s32` values are `Int`;
wrap-around is written out (`% 2 ^ 32`) at the places where the C arithmetic
can overflow (the sector shift, the segment length, the `u32`/`s32`
conversions of the status word).

Not represented: the cache maintenance calls `os_sync_after_write` and
`os_sync_before_read` (they touch neither the session nor the IPC channel), and
the contents of data buffers (a buffer is its address).
-/

namespace WiiSD

/-! ## Constants (`#define`s of wiisd.c) -/

abbrev PAGE_SIZE512 : Nat := 512

abbrev SDIOHCR_HOSTCONTROL : Nat := 0x28
abbrev SDIOHCR_SOFTWARERESET : Nat := 0x2f
abbrev SDIOHCR_HOSTCONTROL_4BIT : Nat := 0x02

abbrev IOCTL_SDIO_WRITEHCREG : Nat := 0x01
abbrev IOCTL_SDIO_READHCREG : Nat := 0x02
abbrev IOCTL_SDIO_RESETCARD : Nat := 0x04
abbrev IOCTL_SDIO_SETCLK : Nat := 0x06
abbrev IOCTL_SDIO_SENDCMD : Nat := 0x07
abbrev IOCTL_SDIO_GETSTATUS : Nat := 0x0B

abbrev SDIOCMD_TYPE_AC : Nat := 3

abbrev SDIO_RESPONSE_R1 : Nat := 1
abbrev SDIO_RESPONSE_R1B : Nat := 2

abbrev SDIO_CMD_SELECT : Nat := 0x07
abbrev SDIO_CMD_DESELECT : Nat := 0x07
abbrev SDIO_CMD_SETBLOCKLEN : Nat := 0x10
abbrev SDIO_CMD_READMULTIBLOCK : Nat := 0x12
abbrev SDIO_CMD_WRITEMULTIBLOCK : Nat := 0x19
abbrev SDIO_CMD_APPCMD : Nat := 0x37
abbrev SDIO_ACMD_SETBUSWIDTH : Nat := 0x06

abbrev SDIO_STATUS_CARD_INSERTED : Nat := 0x000001
abbrev SDIO_STATUS_CARD_INITIALIZED : Nat := 0x010000
abbrev SDIO_STATUS_CARD_SDHC : Nat := 0x100000

/-- The device path `_sd0_fs`. -/
abbrev _sd0_fs : String := "/dev/sdio/slot0"

/-- Size in bytes of `struct _sdiorequest` on the 32-bit target: nine 4-byte fields. -/
abbrev sizeof_sdiorequest : Nat := 36

/-- Size in bytes of `struct _sdioresponse`: four `u32` words. -/
abbrev sizeof_sdioresponse : Nat := 16

/-! ## Data model -/

/-- The record `struct _sdiorequest`; `dma_addr` is the buffer address (0 is `NULL`). -/
structure _sdiorequest where
  cmd : Nat
  cmd_type : Nat
  rsp_type : Nat
  arg : Nat
  blk_cnt : Nat
  blk_size : Nat
  dma_addr : Nat
  isdma : Nat
  pad0 : Nat
deriving DecidableEq, Repr

/-- What a pointer argument of an IPC call refers to. -/
inductive IoBuf where
  /-- The literal `NULL`. -/
  | null
  /-- An array of `u32` words built by the driver (register query, clock word). -/
  | words (ws : List Nat)
  /-- A `struct _sdiorequest` built by the driver. -/
  | request (r : _sdiorequest)
  /-- The caller's data buffer, by address (0 is `NULL`). -/
  | ptr (addr : Nat)
  /-- A stack slot the service writes to (status word, register value, response record). -/
  | scratch
deriving DecidableEq, Repr

/-- One call into the IOS storage service, with the arguments the driver passes. -/
inductive IpcCall where
  | os_open (path : String) (mode : Nat)
  | os_close (fd : Int)
  | os_ioctl (fd : Int) (ioctl : Nat) (inbuf : IoBuf) (inlen : Nat) (outbuf : IoBuf) (outlen : Nat)
  | os_ioctlv (fd : Int) (ioctl : Nat) (num_in : Nat) (num_out : Nat) (iovec : List (IoBuf × Nat))
deriving DecidableEq, Repr

/-- The output pins the driver drives; `GPIO_OSLOT` is the slot light. -/
inductive Gpio where
  | GPIO_OSLOT
deriving DecidableEq, Repr

/-- An externally visible action of the driver, in the order performed.  An IPC
call is logged together with the status code the service returned for it, a
read of the hardware tick counter with the value read. -/
inductive Event where
  | ipc (call : IpcCall) (ret : Int)
  | get_timer (value : Nat)
  | gpio_set_on (pin : Gpio)
deriving DecidableEq, Repr

/-- What the service answers to one IPC call: the `s32` return code, and the
`u32` word found in the output slot afterwards (used by get-status, reset-card
and register reads; ignored elsewhere). -/
structure Reply where
  ret : Int
  out : Nat
deriving DecidableEq, Repr

/-- The file-level variables of wiisd.c. -/
structure Session where
  __sd0_fd : Int
  __sd0_rca : Nat
  __sd0_initialized : Int
  __sd0_sdhc : Int
  __sdio_initialized : Int
deriving DecidableEq, Repr

/-- The values the variables are given by their C initialisers. -/
def Session.initial : Session :=
  { __sd0_fd := -1, __sd0_rca := 0, __sd0_initialized := 0, __sd0_sdhc := 0,
    __sdio_initialized := 0 }

/-- Driver state plus environment: the session, the event log, the replies the
service will give to the next IPC calls (`ora 0` answers the next call), and the
values the next reads of the tick counter will show (`timer 0` is the next). -/
structure World where
  s : Session
  trace : List Event
  ora : Nat → Reply
  timer : Nat → Nat

/-- The world at program start, for a given service and counter behaviour. -/
def World.initial (ora : Nat → Reply) (timer : Nat → Nat) : World :=
  { s := Session.initial, trace := [], ora := ora, timer := timer }

/-- Outcome of a call that may spin in `udelay`: either it returned `result`
leaving world `w`, or a `udelay` inside it used up its spin budget while still
spinning, the world then being `w`. -/
inductive Run (α : Type) where
  | done (result : α) (w : World)
  | spinning (w : World)

/-- The value a call returned, if it returned. -/
def Run.result? {α : Type} : Run α → Option α
  | Run.done r _ => some r
  | Run.spinning _ => none

/-- The world a call left: at its return, or at the point its budget ran out. -/
def Run.world {α : Type} : Run α → World
  | Run.done _ w => w
  | Run.spinning w => w

/-- Conversion of an `s32` to `u32` (two's complement). -/
def toU32 (i : Int) : Nat := (i % 4294967296).toNat

/-- Conversion of a `u32` to `s32` (two's complement). -/
def toS32 (n : Nat) : Int :=
  if n % 4294967296 < 2147483648 then ((n % 4294967296 : Nat) : Int)
  else ((n % 4294967296 : Nat) : Int) - 4294967296

/-! ## External services -/

/-- Perform one IPC call: log it with the service's return code and consume the
reply. -/
def ipc (c : IpcCall) (w : World) : Reply × World :=
  (w.ora 0, { w with trace := w.trace ++ [Event.ipc c (w.ora 0).ret],
                     ora := fun n => w.ora (n + 1) })

/-- The macro `get_timer()`: one read of the free-running 32-bit tick counter at
`0x0D800010`.  The value is logged and the counter stream advances. -/
def get_timer (w : World) : Nat × World :=
  (w.timer 0 % 4294967296,
   { w with trace := w.trace ++ [Event.get_timer (w.timer 0 % 4294967296)],
            timer := fun n => w.timer (n + 1) })

/-- The loop `while(get_timer() <= tmr);` of `udelay`, with `fuel` counter reads
left to spend. -/
def udelay_spin (tmr : Nat) : Nat → World → Run Unit
  | 0, w => Run.spinning w
  | fuel + 1, w =>
    if (get_timer w).1 ≤ tmr then udelay_spin tmr fuel (get_timer w).2
    else Run.done () (get_timer w).2

/-- The function `udelay`: `tmr = get_timer(); tmr += 2*usec;` in `u32`
arithmetic, then the spin loop. -/
def udelay (fuel : Nat) (usec : Int) (w : World) : Run Unit :=
  let r := get_timer w
  let tmr := toU32 ((r.1 : Int) + 2 * usec)
  udelay_spin tmr fuel r.2

/-- The call `gpio_set_on(pin)`. -/
def gpio_set_on (pin : Gpio) (w : World) : World :=
  { w with trace := w.trace ++ [Event.gpio_set_on pin] }

/-! ## IPC command codec -/

/-- The function `__sdio_sendcommand`.  `buffer` and `reply` are addresses (0 is
`NULL`).  The copy-out of the response into `reply` writes caller memory only
and is not represented. -/
def __sdio_sendcommand (cmd cmd_type rsp_type arg blk_cnt blk_size buffer : Nat)
    (_reply _rlen : Nat) (w : World) : Int × World :=
  let request : _sdiorequest :=
    { cmd := cmd, cmd_type := cmd_type, rsp_type := rsp_type, arg := arg,
      blk_cnt := blk_cnt, blk_size := blk_size, dma_addr := buffer,
      isdma := if buffer ≠ 0 then 1 else 0, pad0 := 0 }
  let iovec : List (IoBuf × Nat) :=
    [(IoBuf.request request, sizeof_sdiorequest),
     (IoBuf.ptr buffer, (blk_size * blk_cnt) % 4294967296),
     (IoBuf.scratch, sizeof_sdioresponse)]
  let r :=
    if request.isdma ≠ 0 ∨ w.s.__sd0_sdhc = 1 then
      ipc (IpcCall.os_ioctlv w.s.__sd0_fd IOCTL_SDIO_SENDCMD 2 1 iovec) w
    else
      ipc (IpcCall.os_ioctl w.s.__sd0_fd IOCTL_SDIO_SENDCMD (IoBuf.request request)
        sizeof_sdiorequest IoBuf.scratch sizeof_sdioresponse) w
  (r.1.ret, r.2)

/-- The function `__sdio_setclock`. -/
def __sdio_setclock (set : Nat) (w : World) : Int × World :=
  let r := ipc (IpcCall.os_ioctl w.s.__sd0_fd IOCTL_SDIO_SETCLK (IoBuf.words [set]) 4
    IoBuf.null 0) w
  (r.1.ret, r.2)

/-- The function `__sdio_getstatus`: the return code if negative, else the
status word reinterpreted as `s32`. -/
def __sdio_getstatus (w : World) : Int × World :=
  let r := ipc (IpcCall.os_ioctl w.s.__sd0_fd IOCTL_SDIO_GETSTATUS IoBuf.null 0
    IoBuf.scratch 4) w
  if r.1.ret < 0 then (r.1.ret, r.2) else (toS32 r.1.out, r.2)

/-- The function `__sdio_resetcard`: clears the card address, and on success
stores the upper half of the status word as the new card address. -/
def __sdio_resetcard (w : World) : Int × World :=
  let w0 : World := { w with s := { w.s with __sd0_rca := 0 } }
  let r := ipc (IpcCall.os_ioctl w0.s.__sd0_fd IOCTL_SDIO_RESETCARD IoBuf.null 0
    IoBuf.scratch 4) w0
  if r.1.ret < 0 then (r.1.ret, r.2)
  else
    let status := r.1.out % 4294967296
    (((status &&& 0xffff : Nat) : Int),
      { r.2 with s := { r.2.s with __sd0_rca := (status >>> 16) % 65536 } })

/-! ## Host-controller register access -/

/-- The function `__sdio_gethcr`, returning `(ret, *val)`.  Every caller passes
the address of a local variable, so the `val==NULL` guard is not represented. -/
def __sdio_gethcr (reg size : Nat) (w : World) : Int × Nat × World :=
  let r := ipc (IpcCall.os_ioctl w.s.__sd0_fd IOCTL_SDIO_READHCREG
    (IoBuf.words [reg, 0, 0, size, 0, 0]) 24 IoBuf.scratch 4) w
  (r.1.ret, r.1.out % 4294967296, r.2)

/-- The function `__sdio_sethcr`. -/
def __sdio_sethcr (reg size data : Nat) (w : World) : Int × World :=
  let r := ipc (IpcCall.os_ioctl w.s.__sd0_fd IOCTL_SDIO_WRITEHCREG
    (IoBuf.words [reg, 0, 0, size, data, 0]) 24 IoBuf.null 0) w
  (r.1.ret, r.2)

/-- The loop of `__sdio_waithcr` with `tries` iterations left. -/
def __sdio_waithcr_loop (fuel : Nat) (reg size unset mask : Nat) : Nat → World → Run Int
  | 0, w => Run.done (-1) w
  | tries + 1, w =>
    let r := __sdio_gethcr reg size w
    if r.1 < 0 then Run.done r.1 r.2.2
    else if (unset ≠ 0 ∧ r.2.1 &&& mask = 0) ∨ (unset = 0 ∧ r.2.1 &&& mask ≠ 0) then
      Run.done 0 r.2.2
    else
      match udelay fuel 10000 r.2.2 with
      | Run.spinning w1 => Run.spinning w1
      | Run.done _ w1 => __sdio_waithcr_loop fuel reg size unset mask tries w1

/-- The function `__sdio_waithcr`: the loop started with `tries = 10`. -/
def __sdio_waithcr (fuel : Nat) (reg size unset mask : Nat) (w : World) : Run Int :=
  __sdio_waithcr_loop fuel reg size unset mask 10 w

/-- The function `__sdio_setbuswidth` (host-controller side). -/
def __sdio_setbuswidth (bus_width : Nat) (w : World) : Int × World :=
  let r := __sdio_gethcr SDIOHCR_HOSTCONTROL 1 w
  if r.1 < 0 then (r.1, r.2.2)
  else
    let hc_reg := r.2.1 &&& 0xff
    let hc_reg := hc_reg &&& (0xFFFFFFFF - SDIOHCR_HOSTCONTROL_4BIT)
    let hc_reg := if bus_width = 4 then hc_reg ||| SDIOHCR_HOSTCONTROL_4BIT else hc_reg
    __sdio_sethcr SDIOHCR_HOSTCONTROL 1 hc_reg r.2.2

/-! ## Card protocol sequencer -/

/-- The function `__sd0_select`. -/
def __sd0_select (w : World) : Int × World :=
  __sdio_sendcommand SDIO_CMD_SELECT SDIOCMD_TYPE_AC SDIO_RESPONSE_R1B
    ((w.s.__sd0_rca <<< 16) % 4294967296) 0 0 0 0 0 w

/-- The function `__sd0_deselect`. -/
def __sd0_deselect (w : World) : Int × World :=
  __sdio_sendcommand SDIO_CMD_DESELECT SDIOCMD_TYPE_AC SDIO_RESPONSE_R1B 0 0 0 0 0 0 w

/-- The function `__sd0_setblocklength`. -/
def __sd0_setblocklength (blk_len : Nat) (w : World) : Int × World :=
  __sdio_sendcommand SDIO_CMD_SETBLOCKLEN SDIOCMD_TYPE_AC SDIO_RESPONSE_R1 blk_len 0 0 0 0 0 w

/-- The function `__sd0_setbuswidth` (card side). -/
def __sd0_setbuswidth (bus_width : Nat) (w : World) : Int × World :=
  let val : Nat := if bus_width = 4 then 0x0002 else 0x0000
  let r := __sdio_sendcommand SDIO_CMD_APPCMD SDIOCMD_TYPE_AC SDIO_RESPONSE_R1
    ((w.s.__sd0_rca <<< 16) % 4294967296) 0 0 0 0 0 w
  if r.1 < 0 then r
  else __sdio_sendcommand SDIO_ACMD_SETBUSWIDTH SDIOCMD_TYPE_AC SDIO_RESPONSE_R1 val
    0 0 0 0 0 r.2

/-- The function `__sd0_initio`. -/
def __sd0_initio (fuel : Nat) (w : World) : Run Bool :=
  let w1 := (__sdio_resetcard w).2
  let r2 := __sdio_getstatus w1
  let status : Nat := toU32 r2.1
  if status &&& SDIO_STATUS_CARD_INSERTED = 0 then Run.done false r2.2
  else if status &&& SDIO_STATUS_CARD_INITIALIZED ≠ 0 then
    let w3 : World :=
      { r2.2 with s := { r2.2.s with
          __sd0_sdhc := if status &&& SDIO_STATUS_CARD_SDHC ≠ 0 then 1 else 0 } }
    let r4 := __sdio_setbuswidth 4 w3
    if r4.1 < 0 then Run.done false r4.2
    else
      let r5 := __sdio_setclock 1 r4.2
      if r5.1 < 0 then Run.done false r5.2
      else
        let r6 := __sd0_select r5.2
        if r6.1 < 0 then Run.done false r6.2
        else
          let r7 := __sd0_setblocklength PAGE_SIZE512 r6.2
          if r7.1 < 0 then Run.done false (__sd0_deselect r7.2).2
          else
            let r8 := __sd0_setbuswidth 4 r7.2
            let w9 := (__sd0_deselect r8.2).2
            if r8.1 < 0 then Run.done false w9
            else Run.done true { w9 with s := { w9.s with __sd0_initialized := 1 } }
  else
    let w3 := (__sdio_sethcr SDIOHCR_SOFTWARERESET 1 7 r2.2).2
    match __sdio_waithcr fuel SDIOHCR_SOFTWARERESET 1 1 7 w3 with
    | Run.spinning w4 => Run.spinning w4
    | Run.done _ w4 =>
      let w5 := (ipc (IpcCall.os_close w4.s.__sd0_fd) w4).2
      let r6 := ipc (IpcCall.os_open _sd0_fs 1) w5
      Run.done false { r6.2 with s := { r6.2.s with __sd0_fd := r6.1.ret } }

/-! ## Public driver surface -/

/-- The function `sdio_Deinitialize`. -/
def sdio_Deinitialize (w : World) : Bool × World :=
  let w1 := if w.s.__sd0_fd ≥ 0 then (ipc (IpcCall.os_close w.s.__sd0_fd) w).2 else w
  (true, { w1 with s := { w1.s with __sdio_initialized := 0 } })

/-- The function `sdio_Startup`. -/
def sdio_Startup (fuel : Nat) (w : World) : Run Bool :=
  if w.s.__sdio_initialized = 1 then Run.done true w
  else
    let r := ipc (IpcCall.os_open _sd0_fs 0) w
    let w1 : World := { r.2 with s := { r.2.s with __sd0_fd := r.1.ret } }
    if w1.s.__sd0_fd < 0 then Run.done false ( sdio_Deinitialize w1).2
    else
      match __sd0_initio fuel w1 with
      | Run.spinning w2 => Run.spinning w2
      | Run.done b w2 =>
        if b = false then Run.done false ( sdio_Deinitialize w2).2
        else Run.done true { w2 with s := { w2.s with __sdio_initialized := 1 } }

/-- The function `sdio_Shutdown`. -/
def sdio_Shutdown (w : World) : Bool × World :=
  if w.s.__sd0_initialized = 0 then (false, w)
  else
    let w1 := ( sdio_Deinitialize w).2
    (true, { w1 with s := { w1.s with __sd0_initialized := 0 } })

/-- The function `sdio_Transfer` (built without `VISUALIZE`).  `sector` and
`numSectors` have the 32-bit type `sec_t`; `buffer` is an address. -/
def sdio_Transfer (cmd sector numSectors buffer : Nat) (w : World) : Bool × World :=
  if buffer &&& 0x1F ≠ 0 then (false, gpio_set_on Gpio.GPIO_OSLOT w)
  else if buffer = 0 then (false, w)
  else
    let r := __sd0_select w
    if r.1 < 0 then (false, r.2)
    else
      let sector := if r.2.s.__sd0_sdhc = 0 then (sector <<< 9) % 4294967296 else sector
      let r2 := __sdio_sendcommand cmd SDIOCMD_TYPE_AC SDIO_RESPONSE_R1 sector numSectors
        PAGE_SIZE512 buffer 0 0 r.2
      let w3 := (__sd0_deselect r2.2).2
      (decide (r2.1 ≥ 0), w3)

/-- The function `sdio_ReadSectors`. -/
def sdio_ReadSectors (sector numSectors buffer : Nat) (w : World) : Bool × World :=
  sdio_Transfer SDIO_CMD_READMULTIBLOCK sector numSectors buffer w

/-- The function `sdio_WriteSectors`. -/
def sdio_WriteSectors (sector numSectors buffer : Nat) (w : World) : Bool × World :=
  sdio_Transfer SDIO_CMD_WRITEMULTIBLOCK sector numSectors buffer w

/-! ## Vocabulary for stating the properties -/

/-! ### Requests, calls and events -/

/-- The request record `__sdio_sendcommand` builds from its arguments. -/
def mkRequest (cmd cmd_type rsp_type arg blk_cnt blk_size buffer : Nat) : _sdiorequest :=
  { cmd := cmd, cmd_type := cmd_type, rsp_type := rsp_type, arg := arg,
    blk_cnt := blk_cnt, blk_size := blk_size, dma_addr := buffer,
    isdma := if buffer ≠ 0 then 1 else 0, pad0 := 0 }

/-- The vectorized form of the send-command call: two input segments (request,
data buffer of `len` bytes) and one output segment (response). -/
def vectorCall (fd : Int) (req : _sdiorequest) (len : Nat) : IpcCall :=
  IpcCall.os_ioctlv fd IOCTL_SDIO_SENDCMD 2 1
    [(IoBuf.request req, sizeof_sdiorequest), (IoBuf.ptr req.dma_addr, len),
     (IoBuf.scratch, sizeof_sdioresponse)]

/-- The simple form of the send-command call. -/
def simpleCall (fd : Int) (req : _sdiorequest) : IpcCall :=
  IpcCall.os_ioctl fd IOCTL_SDIO_SENDCMD (IoBuf.request req) sizeof_sdiorequest
    IoBuf.scratch sizeof_sdioresponse

/-- The send-command call for a request without data buffer and without
blocks, as issued in session `s`: vectorized exactly when the card is flagged
high-capacity. -/
def controlCall (s : Session) (cmd rsp_type arg : Nat) : IpcCall :=
  if s.__sd0_sdhc = 1 then vectorCall s.__sd0_fd (mkRequest cmd SDIOCMD_TYPE_AC rsp_type arg 0 0 0) 0
  else simpleCall s.__sd0_fd (mkRequest cmd SDIOCMD_TYPE_AC rsp_type arg 0 0 0)

/-- The event logged by `__sdio_sendcommand` in session `s` for request `req`
with data-segment length `len`, answered with status `ret`: the vectorized call
when the request has a buffer or the card is flagged high-capacity, the simple
call otherwise. -/
def sendEvent (s : Session) (req : _sdiorequest) (len : Nat) (ret : Int) : Event :=
  Event.ipc
    (if req.dma_addr ≠ 0 ∨ s.__sd0_sdhc = 1 then vectorCall s.__sd0_fd req len
     else simpleCall s.__sd0_fd req) ret

/-- The select request: CMD7, addressed, R1B, card address in the upper half. -/
def selectRequest (rca : Nat) : _sdiorequest :=
  mkRequest SDIO_CMD_SELECT SDIOCMD_TYPE_AC SDIO_RESPONSE_R1B ((rca <<< 16) % 4294967296) 0 0 0

/-- The deselect request: CMD7, addressed, R1B, argument 0. -/
def deselectRequest : _sdiorequest :=
  mkRequest SDIO_CMD_DESELECT SDIOCMD_TYPE_AC SDIO_RESPONSE_R1B 0 0 0 0

/-- The event logged by one read of host-controller register `reg` that the
service answers with `r`. -/
def readEvent (fd : Int) (reg size : Nat) (r : Reply) : Event :=
  Event.ipc (IpcCall.os_ioctl fd IOCTL_SDIO_READHCREG (IoBuf.words [reg, 0, 0, size, 0, 0]) 24
    IoBuf.scratch 4) r.ret

/-- The event logged by one write of `data` to host-controller register `reg`
that the service answers with `r`. -/
def writeEvent (fd : Int) (reg size data : Nat) (r : Reply) : Event :=
  Event.ipc (IpcCall.os_ioctl fd IOCTL_SDIO_WRITEHCREG (IoBuf.words [reg, 0, 0, size, data, 0])
    24 IoBuf.null 0) r.ret

/-- The request record carried by a send-command event, if the event is one. -/
def Event.request? : Event → Option _sdiorequest
  | Event.ipc (IpcCall.os_ioctl _ op (IoBuf.request r) _ _ _) _ =>
    if op = IOCTL_SDIO_SENDCMD then some r else none
  | Event.ipc (IpcCall.os_ioctlv _ op _ _ ((IoBuf.request r, _) :: _)) _ =>
    if op = IOCTL_SDIO_SENDCMD then some r else none
  | _ => none

/-- The status code logged with an IPC event (0 for other events). -/
def Event.ret : Event → Int
  | Event.ipc _ r => r
  | _ => 0

/-- The argument field of the request carried by the event at position `i`. -/
def argAt (tr : List Event) (i : Nat) : Option Nat :=
  (tr.get? i).bind fun e => (Event.request? e).map fun r => r.arg

/-- The data-segment length of a vectorized call logged at position `i`. -/
def dataLenAt (tr : List Event) (i : Nat) : Option Nat :=
  match tr.get? i with
  | some (Event.ipc (IpcCall.os_ioctlv _ _ _ _ (_ :: (_, len) :: _)) _) => some len
  | _ => none

/-- The events a call appended: the trace of the world after, without the
trace of the world before. -/
def newEvents (before after : World) : List Event :=
  after.trace.drop before.trace.length

/-! ### The register poll -/

/-- The condition `__sdio_waithcr` polls for: `(val & mask) == 0` when `unset`
is requested, `(val & mask) != 0` otherwise. -/
def pollCond (unset mask val : Nat) : Prop :=
  (unset ≠ 0 ∧ val &&& mask = 0) ∨ (unset = 0 ∧ val &&& mask ≠ 0)

instance (unset mask val : Nat) : Decidable (pollCond unset mask val) := by
  unfold pollCond
  infer_instance

/-- The values shown by the tick-counter reads of a trace, in order. -/
def timerReads : List Event → List Nat
  | [] => []
  | Event.get_timer v :: rest => v :: timerReads rest
  | _ :: rest => timerReads rest

/-- Number of host-controller register reads in a trace. -/
def registerReads : List Event → Nat
  | [] => 0
  | Event.ipc (IpcCall.os_ioctl _ op _ _ _ _) _ :: rest =>
    (if op = IOCTL_SDIO_READHCREG then 1 else 0) + registerReads rest
  | _ :: rest => registerReads rest

/-- The events one call of `__sdio_waithcr` appends. -/
def waithcrEvents (fuel : Nat) (reg size unset mask : Nat) (w : World) : List Event :=
  newEvents w (__sdio_waithcr fuel reg size unset mask w).world

/-! ### Bring-up -/

/-- The value `__sdio_setbuswidth(4)` writes back when the host-control register
read `old`: the low byte with the 4-bit flag set. -/
def hostControl4Bit (old : Nat) : Nat :=
  ((old &&& 0xff) &&& (0xFFFFFFFF - SDIOHCR_HOSTCONTROL_4BIT)) ||| SDIOHCR_HOSTCONTROL_4BIT

/-- The card address a successful reset-card reply carries: the upper half of
its status word. -/
def cardAddress (reset : Reply) : Nat := ((reset.out % 4294967296) >>> 16) % 65536

/-- The session after a successful bring-up of an initialized card, given the
replies to reset-card and get-status. -/
def bringUpSession (s : Session) (reset status : Reply) : Session :=
  { s with
    __sd0_rca := cardAddress reset,
    __sd0_sdhc := if (status.out % 4294967296) &&& SDIO_STATUS_CARD_SDHC ≠ 0 then 1 else 0,
    __sd0_initialized := 1 }

/-- The branch of `__sd0_initio` taken when the status word has the initialized
bit, from the host-side bus-width step on (same text as in `__sd0_initio`). -/
def initializedBranch (w3 : World) : Run Bool :=
  let r4 := __sdio_setbuswidth 4 w3
  if r4.1 < 0 then Run.done false r4.2
  else
    let r5 := __sdio_setclock 1 r4.2
    if r5.1 < 0 then Run.done false r5.2
    else
      let r6 := __sd0_select r5.2
      if r6.1 < 0 then Run.done false r6.2
      else
        let r7 := __sd0_setblocklength PAGE_SIZE512 r6.2
        if r7.1 < 0 then Run.done false (__sd0_deselect r7.2).2
        else
          let r8 := __sd0_setbuswidth 4 r7.2
          let w9 := (__sd0_deselect r8.2).2
          if r8.1 < 0 then Run.done false w9
          else Run.done true { w9 with s := { w9.s with __sd0_initialized := 1 } }

/-- The branch of `__sd0_initio` taken when the status word lacks the
initialized bit: controller reset, poll, close and reopen (same text as in
`__sd0_initio`). -/
def resetBranch (fuel : Nat) (w2 : World) : Run Bool :=
  let w3 := (__sdio_sethcr SDIOHCR_SOFTWARERESET 1 7 w2).2
  match __sdio_waithcr fuel SDIOHCR_SOFTWARERESET 1 1 7 w3 with
  | Run.spinning w4 => Run.spinning w4
  | Run.done _ w4 =>
    let w5 := (ipc (IpcCall.os_close w4.s.__sd0_fd) w4).2
    let r6 := ipc (IpcCall.os_open _sd0_fs 1) w5
    Run.done false { r6.2 with s := { r6.2.s with __sd0_fd := r6.1.ret } }

/-! ### The select/deselect discipline -/

/-- Events after a successful select are in order when the last of them is the
deselect request and no earlier one is. -/
def closesSelect : List Event → Bool
  | [] => false
  | [d] => decide (Event.request? d = some deselectRequest)
  | m :: d :: rest =>
    !decide (Event.request? m = some deselectRequest) && closesSelect (d :: rest)

/-- The select/deselect discipline over the events one driver call appends.
Events that carry no command request are skipped; the first command request
must be the select for card address `rca`; if the service rejected it (negative
status) nothing follows; if the service accepted it, the events that follow
contain exactly one deselect request, as the last event. -/
def selectBracketed (rca : Nat) : List Event → Bool
  | [] => true
  | e :: rest =>
    match Event.request? e with
    | none => selectBracketed rca rest
    | some r =>
      decide (r = selectRequest rca) &&
        (if Event.ret e < 0 then rest.isEmpty else closesSelect rest)

/-! ### The handle ledger -/

/-- True for the events that acquire or release a service handle. -/
def Event.isHandleOp : Event → Bool
  | Event.ipc (IpcCall.os_open _ _) _ => true
  | Event.ipc (IpcCall.os_close _) _ => true
  | _ => false

/-- The handle operations of a trace, in order. -/
def handleOps (tr : List Event) : List Event := tr.filter Event.isHandleOp

/-- True for the events that neither carry a command request nor touch a
handle: register accesses, reset-card, get-status, set-clock, counter reads,
GPIO. -/
def Event.quiet (e : Event) : Bool := (Event.request? e).isNone && !Event.isHandleOp e

/-- One step of the handle ledger.  The state is the list of handles currently
open, or `none` once a close has been issued for something that is not an open
handle (a second close, the negative result of a failed open, a stale value). -/
def handleStep : Option (List Int) → Event → Option (List Int)
  | none, _ => none
  | some live, Event.ipc (IpcCall.os_open _ _) ret =>
    if 0 ≤ ret then some (ret :: live) else some live
  | some live, Event.ipc (IpcCall.os_close fd) _ =>
    if fd ∈ live then some (live.erase fd) else none
  | some live, _ => some live

/-- The handle ledger after a whole trace, starting with no handle open. -/
def handleRun (tr : List Event) : Option (List Int) :=
  tr.foldl handleStep (some [])

/-- Number of successful opens in a trace. -/
def countOpens : List Event → Nat
  | [] => 0
  | Event.ipc (IpcCall.os_open _ _) ret :: rest =>
    (if 0 ≤ ret then 1 else 0) + countOpens rest
  | _ :: rest => countOpens rest

/-- Number of close calls in a trace. -/
def countCloses : List Event → Nat
  | [] => 0
  | Event.ipc (IpcCall.os_close _) _ :: rest => 1 + countCloses rest
  | _ :: rest => countCloses rest

/-- The ledger of handle operations `H` balances with the handles `live` left
open: replaying `H` never closes a handle that is not open and ends with `live`
open, and the closes plus the handles still open account for every successful
open. -/
def ledgerOk (H : List Event) (live : List Int) : Prop :=
  H.foldl handleStep (some []) = some live ∧ countCloses H + live.length = countOpens H

/-- World `w1` extends world `w` quietly: its trace is the trace of `w` followed
by quiet events only, and its session is the session of `w`. -/
def quietExt (w w1 : World) : Prop :=
  ∃ q, w1.trace = w.trace ++ q ∧ (∀ e ∈ q, Event.quiet e = true) ∧ w1.s = w.s

/-- What one run `r` of `__sd0_initio` started in world `w` does to the trace,
the session and the handles, by outcome: the appended events obey the select
discipline; the started flag is untouched; on success the initialized flag is
set and no handle is touched; on failure the flags are as before and either no
handle is touched or the session's handle was closed and the result of a reopen
stored in its place; while spinning nothing but quiet events has happened. -/
def bringUpFacts (w : World) (r : Run Bool) : Prop :=
  r.world.trace = w.trace ++ newEvents w r.world ∧
  selectBracketed r.world.s.__sd0_rca (newEvents w r.world) = true ∧
  r.world.s.__sdio_initialized = w.s.__sdio_initialized ∧
  (r.result? = some true →
    r.world.s.__sd0_initialized = 1 ∧ r.world.s.__sd0_fd = w.s.__sd0_fd ∧
    handleOps (newEvents w r.world) = []) ∧
  (r.result? = some false →
    r.world.s.__sd0_initialized = w.s.__sd0_initialized ∧
    ((r.world.s.__sd0_fd = w.s.__sd0_fd ∧ handleOps (newEvents w r.world) = []) ∨
      (∃ c, handleOps (newEvents w r.world)
        = [Event.ipc (IpcCall.os_close w.s.__sd0_fd) c,
           Event.ipc (IpcCall.os_open _sd0_fs 1) r.world.s.__sd0_fd]))) ∧
  (r.result? = none →
    r.world.s.__sd0_initialized = w.s.__sd0_initialized ∧
    r.world.s.__sd0_fd = w.s.__sd0_fd ∧ handleOps (newEvents w r.world) = [])

/-! ### Lifecycle call sequences -/

/-- The two lifecycle calls of the public surface. -/
inductive Op where
  | startup
  | shutdown
deriving DecidableEq, Repr

/-- Perform one lifecycle call, with spin budget `fuel`. -/
def Op.run (fuel : Nat) : Op → World → Run Bool
  | Op.startup, w => sdio_Startup fuel w
  | Op.shutdown, w => Run.done (sdio_Shutdown w).1 (sdio_Shutdown w).2

/-- Bookkeeping of "some `sdio_Startup` has returned true since the last
`sdio_Shutdown` that returned true": set by a start-up that returns true,
cleared by a shutdown that returns true, otherwise kept. -/
def Op.started (op : Op) (result before : Bool) : Bool :=
  match op, result with
  | Op.startup, true => true
  | Op.shutdown, true => false
  | _, _ => before

/-- Perform a sequence of lifecycle calls, carrying the bookkeeping flag of
`Op.started` along as the result.  A call that keeps spinning ends the
sequence: the program never gets to the next call.  One spin budget serves all
calls of the sequence: a call that returns with some budget returns the same
with every larger one (`startup_mono`). -/
def runOps (fuel : Nat) : List Op → Bool → World → Run Bool
  | [], g, w => Run.done g w
  | op :: ops, g, w =>
    match op.run fuel w with
    | Run.spinning w1 => Run.spinning w1
    | Run.done b w1 => runOps fuel ops (op.started b g) w1

/-- The lifecycle invariant, indexed by the bookkeeping flag of `Op.started`.
Started: both flags are 1 and the session's handle is the one handle open.
Not started: both flags are 0 and no handle is open. -/
def lifecycleInv (started : Bool) (w : World) : Prop :=
  if started then
    w.s.__sd0_initialized = 1 ∧ w.s.__sdio_initialized = 1 ∧ 0 ≤ w.s.__sd0_fd ∧
      ledgerOk (handleOps w.trace) [w.s.__sd0_fd]
  else
    w.s.__sd0_initialized = 0 ∧ w.s.__sdio_initialized = 0 ∧
      ledgerOk (handleOps w.trace) []

/-- The lifecycle invariant for the outcome of a call sequence: when the
sequence has returned, `lifecycleInv` for its bookkeeping flag; while a call is
still spinning, the handle ledger is in order. -/
def runInv : Run Bool → Prop
  | Run.done started w => lifecycleInv started w
  | Run.spinning w => ∃ live, ledgerOk (handleOps w.trace) live

/-! ### Concrete services and sessions for the worked instances -/

/-- A service that answers every call with return code 0 and output word 0. -/
def zeroService : Nat → Reply := fun _ => { ret := 0, out := 0 }

/-- A service that accepts every call of a start-up: `os_open` yields handle 3,
reset-card reports card address `0x1234`, get-status reports `status`, and every
later call returns 0 with a zero output word. -/
def goodService (status : Nat) : Nat → Reply
  | 0 => { ret := 3, out := 0 }
  | 1 => { ret := 0, out := 0x12340000 }
  | 2 => { ret := 0, out := status }
  | _ => { ret := 0, out := 0 }

/-- A service for a start-up whose get-status call fails with return code -1:
`os_open` yields handle 3, reset-card succeeds, every other call returns 0. -/
def statusErrorService : Nat → Reply
  | 0 => { ret := 3, out := 0 }
  | 1 => { ret := 0, out := 0x12340000 }
  | 2 => { ret := -1, out := 0 }
  | _ => { ret := 0, out := 0 }

/-- A service whose register reads always succeed and always show 7, so that a
poll for bits 7 to clear never sees its condition. -/
def busyService : Nat → Reply := fun _ => { ret := 0, out := 7 }

/-- A tick counter that shows `t0` on the next read and one tick more on each
read after it (values are taken modulo `2^32` when read). -/
def counterFrom (t0 : Nat) : Nat → Nat := fun n => t0 + n

/-- A session as left by a successful start-up on handle 3 with card address
`0x1234`, with the given high-capacity flag. -/
def startedSession (sdhc : Int) : Session :=
  { __sd0_fd := 3, __sd0_rca := 0x1234, __sd0_initialized := 1, __sd0_sdhc := sdhc,
    __sdio_initialized := 1 }

/-! ## Basic facts about the primitives -/

@[simp] theorem ipc_reply (c : IpcCall) (w : World) : (ipc c w).1 = w.ora 0 := rfl

@[simp] theorem ipc_session (c : IpcCall) (w : World) : (ipc c w).2.s = w.s := rfl

@[simp] theorem ipc_trace (c : IpcCall) (w : World) :
    (ipc c w).2.trace = w.trace ++ [Event.ipc c (w.ora 0).ret] := rfl

@[simp] theorem ipc_ora (c : IpcCall) (w : World) :
    (ipc c w).2.ora = fun n => w.ora (n + 1) := rfl

/-- The effect of `__sdio_sendcommand` in one equation: one IPC call, whose
form depends on the buffer and the high-capacity flag. -/
theorem sendcommand_eq (cmd cmd_type rsp_type arg blk_cnt blk_size buffer reply rlen : Nat)
    (w : World) :
    __sdio_sendcommand cmd cmd_type rsp_type arg blk_cnt blk_size buffer reply rlen w
      = ((w.ora 0).ret,
         { w with
           trace := w.trace ++
             [Event.ipc
               (if buffer ≠ 0 ∨ w.s.__sd0_sdhc = 1 then
                  vectorCall w.s.__sd0_fd
                    (mkRequest cmd cmd_type rsp_type arg blk_cnt blk_size buffer)
                    ((blk_size * blk_cnt) % 4294967296)
                else
                  simpleCall w.s.__sd0_fd
                    (mkRequest cmd cmd_type rsp_type arg blk_cnt blk_size buffer))
               (w.ora 0).ret],
           ora := fun n => w.ora (n + 1) }) := by
  unfold __sdio_sendcommand
  by_cases hb : buffer = 0
  · by_cases hs : w.s.__sd0_sdhc = 1
    · simp [hb, hs, ipc, vectorCall, mkRequest]
    · simp [hb, hs, ipc, simpleCall, mkRequest]
  · simp [hb, ipc, vectorCall, mkRequest]

/-! ## C2: misaligned buffers are rejected before any IPC call -/

/-- C2: for every command code, sector, count and world, `sdio_Transfer` called
with a buffer address whose low 5 bits are not all zero returns false, and the
world afterwards is the world before with exactly one event appended, the
switching-on of `GPIO_OSLOT`: no IPC call is logged, no reply of the service is
consumed, and the session is unchanged. -/
theorem sdio_Transfer_misaligned (cmd sector numSectors buffer : Nat) (w : World)
    (h : buffer &&& 0x1F ≠ 0) :
    sdio_Transfer cmd sector numSectors buffer w
      = (false, { w with trace := w.trace ++ [Event.gpio_set_on Gpio.GPIO_OSLOT] }) := by
  unfold sdio_Transfer
  rw [if_pos h]
  rfl

/-- Witness for C2: a read of one sector into the odd address 33, on a started
high-capacity session. -/
theorem sdio_Transfer_misaligned_witness :
    (33 &&& 0x1F ≠ 0) ∧
    sdio_Transfer SDIO_CMD_READMULTIBLOCK 100 1 33
        { s := { __sd0_fd := 3, __sd0_rca := 0x1234, __sd0_initialized := 1,
                 __sd0_sdhc := 1, __sdio_initialized := 1 },
          trace := [], ora := zeroService, timer := counterFrom 0 }
      = (false,
         { s := { __sd0_fd := 3, __sd0_rca := 0x1234, __sd0_initialized := 1,
                  __sd0_sdhc := 1, __sdio_initialized := 1 },
           trace := [Event.gpio_set_on Gpio.GPIO_OSLOT],
           ora := zeroService, timer := counterFrom 0 }) :=
  ⟨by decide, sdio_Transfer_misaligned SDIO_CMD_READMULTIBLOCK 100 1 33 _ (by decide)⟩

/-! ## C6: the command codec -/

/-- C6 (amended): for every argument tuple and world, `__sdio_sendcommand`
returns the status code of its one IPC call unchanged, leaves the session
unchanged, consumes exactly one reply and appends exactly one event: a call with
the send-command opcode on the session's handle, in the vectorized form (2 input
segments, 1 output segment, data segment of length `(blk_size * blk_cnt) mod 2^32`)
if and only if the buffer is non-null or `__sd0_sdhc = 1`, and in the simple form
otherwise.  The request record carries `cmd`, `cmd_type`, `rsp_type`, `arg`,
`blk_cnt`, `blk_size` and the buffer as passed, with `isdma = 1` exactly when the
buffer is non-null. -/
theorem sendcommand_dispatch
    (cmd cmd_type rsp_type arg blk_cnt blk_size buffer reply rlen : Nat) (w : World) :
    (__sdio_sendcommand cmd cmd_type rsp_type arg blk_cnt blk_size buffer reply rlen w).1
        = (w.ora 0).ret ∧
    (__sdio_sendcommand cmd cmd_type rsp_type arg blk_cnt blk_size buffer reply rlen w).2.s
        = w.s ∧
    (__sdio_sendcommand cmd cmd_type rsp_type arg blk_cnt blk_size buffer reply rlen w).2.ora
        = (fun n => w.ora (n + 1)) ∧
    (__sdio_sendcommand cmd cmd_type rsp_type arg blk_cnt blk_size buffer reply rlen w).2.trace
        = w.trace ++
          [Event.ipc
            (if buffer ≠ 0 ∨ w.s.__sd0_sdhc = 1 then
              IpcCall.os_ioctlv w.s.__sd0_fd IOCTL_SDIO_SENDCMD 2 1
                [(IoBuf.request
                    { cmd := cmd, cmd_type := cmd_type, rsp_type := rsp_type, arg := arg,
                      blk_cnt := blk_cnt, blk_size := blk_size, dma_addr := buffer,
                      isdma := if buffer ≠ 0 then 1 else 0, pad0 := 0 }, 36),
                 (IoBuf.ptr buffer, (blk_size * blk_cnt) % 4294967296),
                 (IoBuf.scratch, 16)]
            else
              IpcCall.os_ioctl w.s.__sd0_fd IOCTL_SDIO_SENDCMD
                (IoBuf.request
                    { cmd := cmd, cmd_type := cmd_type, rsp_type := rsp_type, arg := arg,
                      blk_cnt := blk_cnt, blk_size := blk_size, dma_addr := buffer,
                      isdma := if buffer ≠ 0 then 1 else 0, pad0 := 0 })
                36 IoBuf.scratch 16)
            (w.ora 0).ret] := by
  rw [sendcommand_eq]
  refine ⟨rfl, rfl, rfl, ?_⟩
  simp only [vectorCall, simpleCall, mkRequest]

/-- Counterexample for C6 as stated: with block size 512, block count `2^23`
and a non-null buffer (the arguments `sdio_Transfer` passes for a transfer of
`2^23` sectors) the vectorized call is issued with a data segment of length 0,
not `512 * 2^23`. -/
theorem sendcommand_length_wraps :
    dataLenAt
      (__sdio_sendcommand SDIO_CMD_READMULTIBLOCK SDIOCMD_TYPE_AC SDIO_RESPONSE_R1 0
        8388608 512 64 0 0 { s := startedSession 1, trace := [], ora := zeroService, timer := counterFrom 0 }).2.trace 0
      = some 0 ∧
    dataLenAt
      (__sdio_sendcommand SDIO_CMD_READMULTIBLOCK SDIOCMD_TYPE_AC SDIO_RESPONSE_R1 0
        8388608 512 64 0 0 { s := startedSession 1, trace := [], ora := zeroService, timer := counterFrom 0 }).2.trace 0
      ≠ some (512 * 8388608) := by
  constructor <;> decide

/-! ## C1: the argument of the data command -/

/-- C1 (amended): for every command code, 32-bit sector number `s`, sector
count and non-null 32-byte-aligned buffer, when the select command succeeds
`sdio_Transfer` appends exactly three events: the select, the data command, and
the deselect.  The data command is vectorized and its argument, a 32-bit
value, is `(s * 512) mod 2^32` if `__sd0_sdhc = 0` and `s` unchanged otherwise;
`(s * 512) mod 2^32` is `s * 512` itself if and only if `s < 2^23`. -/
theorem sdio_Transfer_argument (cmd s n buffer : Nat) (w : World)
    (hs : s < 4294967296) (hb : buffer ≠ 0) (ha : buffer &&& 0x1F = 0)
    (hsel : 0 ≤ (w.ora 0).ret) :
    (sdio_Transfer cmd s n buffer w).2.trace
      = w.trace ++
        [Event.ipc (controlCall w.s SDIO_CMD_SELECT SDIO_RESPONSE_R1B
            ((w.s.__sd0_rca <<< 16) % 4294967296)) (w.ora 0).ret,
         Event.ipc (vectorCall w.s.__sd0_fd
            (mkRequest cmd SDIOCMD_TYPE_AC SDIO_RESPONSE_R1
              (if w.s.__sd0_sdhc = 0 then (s * 512) % 4294967296 else s) n 512 buffer)
            ((512 * n) % 4294967296)) (w.ora 1).ret,
         Event.ipc (controlCall w.s SDIO_CMD_DESELECT SDIO_RESPONSE_R1B 0) (w.ora 2).ret] ∧
    (if w.s.__sd0_sdhc = 0 then (s * 512) % 4294967296 else s) < 4294967296 ∧
    ((s * 512) % 4294967296 = s * 512 ↔ s < 8388608) := by
  refine ⟨?_, ?_, by omega⟩
  · unfold sdio_Transfer __sd0_select __sd0_deselect
    simp only [sendcommand_eq]
    have hsel' : ¬ (w.ora 0).ret < 0 := not_lt.mpr hsel
    by_cases hsd : w.s.__sd0_sdhc = 1
    · have h0 : ¬ w.s.__sd0_sdhc = 0 := by omega
      simp [ha, hb, hsel', hsd, controlCall, Nat.shiftLeft_eq]
    · by_cases h0 : w.s.__sd0_sdhc = 0
      · simp [ha, hb, hsel', h0, controlCall, Nat.shiftLeft_eq]
      · simp [ha, hb, hsel', hsd, h0, controlCall, Nat.shiftLeft_eq]
  · split
    · exact Nat.mod_lt _ (by norm_num)
    · exact hs

/-- Witness for C1: sector 100, four sectors, buffer at address 64, on a started
standard-capacity session with a service that accepts every call; the data
command carries the byte address 51200. -/
theorem sdio_Transfer_argument_witness :
    ((100 : Nat) < 4294967296 ∧ (64 : Nat) ≠ 0 ∧ 64 &&& 0x1F = 0 ∧
      0 ≤ (zeroService 0).ret) ∧
    argAt (sdio_Transfer SDIO_CMD_READMULTIBLOCK 100 4 64
      { s := startedSession 0, trace := [], ora := zeroService, timer := counterFrom 0 }).2.trace 1 = some 51200 := by
  refine ⟨by decide, ?_⟩
  have h := (sdio_Transfer_argument SDIO_CMD_READMULTIBLOCK 100 4 64
    { s := startedSession 0, trace := [], ora := zeroService, timer := counterFrom 0 }
    (by decide) (by decide) (by decide) (by decide)).1
  rw [h]
  decide

/-- Counterexample for C1 as stated: on a standard-capacity session, sector
`2^23` yields a data command with argument 0, not `2^23 * 512`. -/
theorem sdio_Transfer_argument_wraps :
    argAt (sdio_Transfer SDIO_CMD_READMULTIBLOCK 8388608 1 64
      { s := startedSession 0, trace := [], ora := zeroService, timer := counterFrom 0 }).2.trace 1 = some 0 ∧
    argAt (sdio_Transfer SDIO_CMD_READMULTIBLOCK 8388608 1 64
      { s := startedSession 0, trace := [], ora := zeroService, timer := counterFrom 0 }).2.trace 1
      ≠ some (8388608 * 512) := by
  constructor <;> decide

/-! ## C7: a second start-up is a no-op -/

@[simp] theorem result?_done {α : Type} (r : α) (w : World) :
    (Run.done r w).result? = some r := rfl

@[simp] theorem result?_spinning {α : Type} (w : World) :
    (Run.spinning w : Run α).result? = none := rfl

@[simp] theorem world_done {α : Type} (r : α) (w : World) : (Run.done r w).world = w := rfl

@[simp] theorem world_spinning {α : Type} (w : World) :
    (Run.spinning w : Run α).world = w := rfl

/-- After a start-up that reports success the started flag is set. -/
theorem startup_true_flag (fuel : Nat) (w : World)
    (h : (sdio_Startup fuel w).result? = some true) :
    (sdio_Startup fuel w).world.s.__sdio_initialized = 1 := by
  unfold sdio_Startup at h ⊢
  by_cases h1 : w.s.__sdio_initialized = 1
  · simp [h1]
  · rw [if_neg h1] at h ⊢
    dsimp only at h ⊢
    by_cases h2 : (ipc (IpcCall.os_open _sd0_fs 0) w).1.ret < 0
    · rw [if_pos h2] at h
      simp at h
    · rw [if_neg h2] at h ⊢
      split
      · rename_i w2 heq
        rw [heq] at h
        simp at h
      · rename_i b w2 heq
        rw [heq] at h
        cases b <;> simp at h ⊢

/-- C7: if a call of `sdio_Startup` returns true, then a call of `sdio_Startup`
made in the resulting world, whatever its spin budget, returns true and leaves
that world as it is: no event is logged, no reply of the service is consumed (so
no open, close, ioctl or ioctlv is performed), and the session is unchanged. -/
theorem sdio_Startup_idempotent (fuel fuel' : Nat) (w : World)
    (h : (sdio_Startup fuel w).result? = some true) :
    sdio_Startup fuel' (sdio_Startup fuel w).world
      = Run.done true (sdio_Startup fuel w).world := by
  have hflag := startup_true_flag fuel w h
  generalize (sdio_Startup fuel w).world = w' at hflag
  unfold sdio_Startup
  rw [if_pos hflag]

/-- Witness for C7: a first start-up from the initial world, against a service
that accepts every call and reports an inserted, initialized, high-capacity
card. -/
theorem sdio_Startup_idempotent_witness :
    (sdio_Startup 0 (World.initial (goodService 0x110001) (counterFrom 0))).result?
      = some true ∧
    sdio_Startup 0 (sdio_Startup 0 (World.initial (goodService 0x110001) (counterFrom 0))).world
      = Run.done true
          (sdio_Startup 0 (World.initial (goodService 0x110001) (counterFrom 0))).world :=
  ⟨by decide, sdio_Startup_idempotent 0 0 _ (by decide)⟩

/-! ## C4: bring-up of an initialized card -/

theorem toU32_toS32 (n : Nat) : toU32 (toS32 n) = n % 4294967296 := by
  unfold toU32 toS32
  split <;> omega

/-- The value written back always has the 4-bit flag set. -/
theorem hostControl4Bit_flag (old : Nat) :
    hostControl4Bit old &&& SDIOHCR_HOSTCONTROL_4BIT = SDIOHCR_HOSTCONTROL_4BIT := by
  unfold hostControl4Bit
  apply Nat.eq_of_testBit_eq
  intro i
  simp only [Nat.testBit_and, Nat.testBit_or]
  cases h : Nat.testBit SDIOHCR_HOSTCONTROL_4BIT i <;> simp

/-- C4: for every world in which the first ten IPC calls return a non-negative
status and the status word delivered by get-status has the inserted bit and the
initialized bit set, `__sd0_initio` (with any spin budget) returns true; sets `__sd0_initialized` to 1;
sets `__sd0_sdhc` to 1 if the status word has the high-capacity bit and to 0
otherwise; stores the card address reported by reset-card; and appends exactly
these ten calls: reset-card, get-status, read of host-control register 0x28,
write of that register with a value that has the 4-bit flag 0x02 set, set-clock
with value 1, select (CMD7, argument `rca << 16`), set-block-length (CMD16,
argument 512), application-command prefix (CMD55, argument `rca << 16`),
set-bus-width (ACMD6, argument 2), deselect (CMD7, argument 0). -/
theorem initio_initialized_card (fuel : Nat) (w : World)
    (hret : ∀ n, n < 10 → 0 ≤ (w.ora n).ret)
    (hins : ((w.ora 1).out % 4294967296) &&& SDIO_STATUS_CARD_INSERTED ≠ 0)
    (hini : ((w.ora 1).out % 4294967296) &&& SDIO_STATUS_CARD_INITIALIZED ≠ 0) :
    (__sd0_initio fuel w).result? = some true ∧
    (__sd0_initio fuel w).world.s = bringUpSession w.s (w.ora 0) (w.ora 1) ∧
    (__sd0_initio fuel w).world.trace = w.trace ++
      [ Event.ipc (IpcCall.os_ioctl w.s.__sd0_fd IOCTL_SDIO_RESETCARD IoBuf.null 0
          IoBuf.scratch 4) (w.ora 0).ret,
        Event.ipc (IpcCall.os_ioctl w.s.__sd0_fd IOCTL_SDIO_GETSTATUS IoBuf.null 0
          IoBuf.scratch 4) (w.ora 1).ret,
        readEvent w.s.__sd0_fd SDIOHCR_HOSTCONTROL 1 (w.ora 2),
        writeEvent w.s.__sd0_fd SDIOHCR_HOSTCONTROL 1
          (hostControl4Bit ((w.ora 2).out % 4294967296)) (w.ora 3),
        Event.ipc (IpcCall.os_ioctl w.s.__sd0_fd IOCTL_SDIO_SETCLK (IoBuf.words [1]) 4
          IoBuf.null 0) (w.ora 4).ret,
        Event.ipc (controlCall (bringUpSession w.s (w.ora 0) (w.ora 1)) SDIO_CMD_SELECT
          SDIO_RESPONSE_R1B ((cardAddress (w.ora 0) <<< 16) % 4294967296)) (w.ora 5).ret,
        Event.ipc (controlCall (bringUpSession w.s (w.ora 0) (w.ora 1)) SDIO_CMD_SETBLOCKLEN
          SDIO_RESPONSE_R1 512) (w.ora 6).ret,
        Event.ipc (controlCall (bringUpSession w.s (w.ora 0) (w.ora 1)) SDIO_CMD_APPCMD
          SDIO_RESPONSE_R1 ((cardAddress (w.ora 0) <<< 16) % 4294967296)) (w.ora 7).ret,
        Event.ipc (controlCall (bringUpSession w.s (w.ora 0) (w.ora 1)) SDIO_ACMD_SETBUSWIDTH
          SDIO_RESPONSE_R1 2) (w.ora 8).ret,
        Event.ipc (controlCall (bringUpSession w.s (w.ora 0) (w.ora 1)) SDIO_CMD_DESELECT
          SDIO_RESPONSE_R1B 0) (w.ora 9).ret ] ∧
    hostControl4Bit ((w.ora 2).out % 4294967296) &&& SDIOHCR_HOSTCONTROL_4BIT
      = SDIOHCR_HOSTCONTROL_4BIT := by
  have h0 : ¬ (w.ora 0).ret < 0 := not_lt.mpr (hret 0 (by decide))
  have h1 : ¬ (w.ora 1).ret < 0 := not_lt.mpr (hret 1 (by decide))
  have h2 : ¬ (w.ora 2).ret < 0 := not_lt.mpr (hret 2 (by decide))
  have h3 : ¬ (w.ora 3).ret < 0 := not_lt.mpr (hret 3 (by decide))
  have h4 : ¬ (w.ora 4).ret < 0 := not_lt.mpr (hret 4 (by decide))
  have h5 : ¬ (w.ora 5).ret < 0 := not_lt.mpr (hret 5 (by decide))
  have h6 : ¬ (w.ora 6).ret < 0 := not_lt.mpr (hret 6 (by decide))
  have h7 : ¬ (w.ora 7).ret < 0 := not_lt.mpr (hret 7 (by decide))
  have h8 : ¬ (w.ora 8).ret < 0 := not_lt.mpr (hret 8 (by decide))
  have hins' : ¬ ((w.ora 1).out % 4294967296 % 2 = 0) := by
    simpa [Nat.and_one_is_mod] using hins
  refine ⟨?_, ?_, ?_, hostControl4Bit_flag _⟩
  all_goals
    unfold __sd0_initio __sd0_setbuswidth __sd0_setblocklength __sd0_select __sd0_deselect
      __sdio_setbuswidth __sdio_setclock __sdio_getstatus __sdio_resetcard __sdio_gethcr
      __sdio_sethcr
    simp only [sendcommand_eq]
    simp [h0, h1, h2, h3, h4, h5, h6, h7, h8, hins', hini, toU32_toS32, bringUpSession,
      cardAddress, controlCall, readEvent, writeEvent, hostControl4Bit]

/-- Witness for C4: bring-up on handle 3 against a service that accepts every
call, reports card address `0x1234` and the status word `0x110001`. -/
theorem initio_initialized_card_witness :
    ((∀ n, n < 10 → 0 ≤ (goodService 0x110001 (n + 1)).ret) ∧
      (((goodService 0x110001 2).out % 4294967296) &&& SDIO_STATUS_CARD_INSERTED ≠ 0) ∧
      (((goodService 0x110001 2).out % 4294967296) &&& SDIO_STATUS_CARD_INITIALIZED ≠ 0)) ∧
    (__sd0_initio 0 { s := { Session.initial with __sd0_fd := 3 }, trace := [],
                      timer := counterFrom 0,
                      ora := fun n => goodService 0x110001 (n + 1) }).result? = some true ∧
    (__sd0_initio 0 { s := { Session.initial with __sd0_fd := 3 }, trace := [],
                      timer := counterFrom 0,
                      ora := fun n => goodService 0x110001 (n + 1) }).world.s
      = { __sd0_fd := 3, __sd0_rca := 0x1234, __sd0_initialized := 1, __sd0_sdhc := 1,
          __sdio_initialized := 0 } := by
  have hret : ∀ n, n < 10 → 0 ≤ (goodService 0x110001 (n + 1)).ret := by
    intro n _
    match n with
    | 0 => decide
    | 1 => decide
    | _ + 2 => exact Int.le_refl 0
  have h := initio_initialized_card 0
    { s := { Session.initial with __sd0_fd := 3 }, trace := [],
      timer := counterFrom 0, ora := fun n => goodService 0x110001 (n + 1) }
    hret (by decide) (by decide)
  exact ⟨⟨hret, by decide, by decide⟩, h.1, by rw [h.2.1]; decide⟩

/-! ## Shared facts about traces -/

/-- The effect of `__sdio_sendcommand`, with the logged event named. -/
theorem sendcommand_ev (cmd cmd_type rsp_type arg blk_cnt blk_size buffer reply rlen : Nat)
    (w : World) :
    __sdio_sendcommand cmd cmd_type rsp_type arg blk_cnt blk_size buffer reply rlen w
      = ((w.ora 0).ret,
         { w with
           trace := w.trace ++
             [sendEvent w.s (mkRequest cmd cmd_type rsp_type arg blk_cnt blk_size buffer)
               ((blk_size * blk_cnt) % 4294967296) (w.ora 0).ret],
           ora := fun n => w.ora (n + 1) }) := by
  rw [sendcommand_eq]
  simp only [sendEvent, mkRequest]

@[simp] theorem request?_sendEvent (s : Session) (req : _sdiorequest) (len : Nat) (ret : Int) :
    Event.request? (sendEvent s req len ret) = some req := by
  unfold sendEvent
  split <;> simp [Event.request?, vectorCall, simpleCall]

@[simp] theorem ret_sendEvent (s : Session) (req : _sdiorequest) (len : Nat) (ret : Int) :
    Event.ret (sendEvent s req len ret) = ret := rfl

@[simp] theorem isHandleOp_sendEvent (s : Session) (req : _sdiorequest) (len : Nat)
    (ret : Int) : Event.isHandleOp (sendEvent s req len ret) = false := by
  unfold sendEvent
  split <;> simp [Event.isHandleOp, vectorCall, simpleCall]

theorem selectBracketed_quiet_append (rca : Nat) (q rest : List Event)
    (hq : ∀ e ∈ q, Event.quiet e = true) :
    selectBracketed rca (q ++ rest) = selectBracketed rca rest := by
  induction q with
  | nil => rfl
  | cons e q ih =>
    have he : Event.request? e = none := by
      have := hq e (List.mem_cons_self e q)
      simp only [Event.quiet, Bool.and_eq_true, Option.isNone_iff_eq_none] at this
      exact this.1
    rw [List.cons_append, selectBracketed, he]
    exact ih (fun x hx => hq x (List.mem_cons_of_mem e hx))

theorem handleOps_quiet_append (q rest : List Event)
    (hq : ∀ e ∈ q, Event.quiet e = true) :
    handleOps (q ++ rest) = handleOps rest := by
  induction q with
  | nil => rfl
  | cons e q ih =>
    have he : Event.isHandleOp e = false := by
      have := hq e (List.mem_cons_self e q)
      simp only [Event.quiet, Bool.and_eq_true, Bool.not_eq_true'] at this
      exact this.2
    rw [List.cons_append, handleOps, List.filter_cons, he]
    exact ih (fun x hx => hq x (List.mem_cons_of_mem e hx))

@[simp] theorem request?_ioctl_words (fd : Int) (op : Nat) (ws : List Nat) (inlen : Nat)
    (outbuf : IoBuf) (outlen : Nat) (ret : Int) :
    Event.request? (Event.ipc (IpcCall.os_ioctl fd op (IoBuf.words ws) inlen outbuf outlen) ret)
      = none := rfl

@[simp] theorem request?_ioctl_null (fd : Int) (op : Nat) (inlen : Nat)
    (outbuf : IoBuf) (outlen : Nat) (ret : Int) :
    Event.request? (Event.ipc (IpcCall.os_ioctl fd op IoBuf.null inlen outbuf outlen) ret)
      = none := rfl

@[simp] theorem request?_open (path : String) (mode : Nat) (ret : Int) :
    Event.request? (Event.ipc (IpcCall.os_open path mode) ret) = none := rfl

@[simp] theorem request?_close (fd ret : Int) :
    Event.request? (Event.ipc (IpcCall.os_close fd) ret) = none := rfl

@[simp] theorem request?_get_timer (v : Nat) : Event.request? (Event.get_timer v) = none := rfl

@[simp] theorem request?_gpio (pin : Gpio) : Event.request? (Event.gpio_set_on pin) = none := rfl

@[simp] theorem isHandleOp_ioctl (fd : Int) (op : Nat) (inbuf : IoBuf) (inlen : Nat)
    (outbuf : IoBuf) (outlen : Nat) (ret : Int) :
    Event.isHandleOp (Event.ipc (IpcCall.os_ioctl fd op inbuf inlen outbuf outlen) ret)
      = false := rfl

@[simp] theorem isHandleOp_open (path : String) (mode : Nat) (ret : Int) :
    Event.isHandleOp (Event.ipc (IpcCall.os_open path mode) ret) = true := rfl

@[simp] theorem isHandleOp_close (fd ret : Int) :
    Event.isHandleOp (Event.ipc (IpcCall.os_close fd) ret) = true := rfl

@[simp] theorem isHandleOp_get_timer (v : Nat) :
    Event.isHandleOp (Event.get_timer v) = false := rfl

@[simp] theorem isHandleOp_gpio (pin : Gpio) :
    Event.isHandleOp (Event.gpio_set_on pin) = false := rfl

theorem quietExt_refl (w : World) : quietExt w w :=
  ⟨[], by simp, by simp, rfl⟩

theorem quietExt_trans (w w1 w2 : World) (h1 : quietExt w w1) (h2 : quietExt w1 w2) :
    quietExt w w2 := by
  obtain ⟨q1, ht1, hq1, hs1⟩ := h1
  obtain ⟨q2, ht2, hq2, hs2⟩ := h2
  refine ⟨q1 ++ q2, by rw [ht2, ht1, List.append_assoc], ?_, by rw [hs2, hs1]⟩
  intro e he
  rcases List.mem_append.mp he with h | h
  · exact hq1 e h
  · exact hq2 e h

theorem get_timer_quiet (w : World) : quietExt w (get_timer w).2 :=
  ⟨[Event.get_timer (w.timer 0 % 4294967296)], rfl, by simp [Event.quiet], rfl⟩

theorem gethcr_quiet (reg size : Nat) (w : World) :
    quietExt w (__sdio_gethcr reg size w).2.2 :=
  ⟨[readEvent w.s.__sd0_fd reg size (w.ora 0)], rfl, by simp [Event.quiet, readEvent], rfl⟩

theorem udelay_spin_quiet (tmr fuel : Nat) (w : World) :
    quietExt w (udelay_spin tmr fuel w).world := by
  induction fuel generalizing w with
  | zero => exact quietExt_refl w
  | succ f ih =>
    rw [udelay_spin]
    split
    · exact quietExt_trans _ _ _ (get_timer_quiet w) (ih _)
    · exact get_timer_quiet w

theorem udelay_quiet (fuel : Nat) (usec : Int) (w : World) :
    quietExt w (udelay fuel usec w).world :=
  quietExt_trans _ _ _ (get_timer_quiet w) (udelay_spin_quiet _ fuel _)

/-- The polling loop logs only register reads and counter reads and leaves the
session alone, whether it returns or keeps spinning. -/
theorem waithcr_loop_quiet (fuel reg size unset mask : Nat) (tries : Nat) (w : World) :
    quietExt w (__sdio_waithcr_loop fuel reg size unset mask tries w).world := by
  induction tries generalizing w with
  | zero => exact quietExt_refl w
  | succ t ih =>
    rw [__sdio_waithcr_loop]
    split
    · exact gethcr_quiet reg size w
    · split
      · exact gethcr_quiet reg size w
      · have hu := udelay_quiet fuel 10000 (__sdio_gethcr reg size w).2.2
        split
        · rename_i w1 heq
          rw [heq] at hu
          exact quietExt_trans _ _ _ (gethcr_quiet reg size w) hu
        · rename_i u w1 heq
          rw [heq] at hu
          exact quietExt_trans _ _ _ (gethcr_quiet reg size w)
            (quietExt_trans _ _ _ hu (ih w1))

theorem waithcr_trace (fuel reg size unset mask : Nat) (w : World) :
    (__sdio_waithcr fuel reg size unset mask w).world.trace
      = w.trace ++ waithcrEvents fuel reg size unset mask w := by
  obtain ⟨q, hq, -, -⟩ := waithcr_loop_quiet fuel reg size unset mask 10 w
  unfold waithcrEvents newEvents __sdio_waithcr
  rw [hq, List.drop_left]

theorem waithcr_session (fuel reg size unset mask : Nat) (w : World) :
    (__sdio_waithcr fuel reg size unset mask w).world.s = w.s :=
  (waithcr_loop_quiet fuel reg size unset mask 10 w).choose_spec.2.2

theorem waithcrEvents_quiet (fuel reg size unset mask : Nat) (w : World) :
    ∀ e ∈ waithcrEvents fuel reg size unset mask w, Event.quiet e = true := by
  obtain ⟨q, hq, hq2, -⟩ := waithcr_loop_quiet fuel reg size unset mask 10 w
  unfold waithcrEvents newEvents __sdio_waithcr
  rw [hq, List.drop_left]
  exact hq2

theorem selectBracketed_waithcr (rca fuel reg size unset mask : Nat) (w : World)
    (rest : List Event) :
    selectBracketed rca (waithcrEvents fuel reg size unset mask w ++ rest)
      = selectBracketed rca rest :=
  selectBracketed_quiet_append rca _ rest (waithcrEvents_quiet fuel reg size unset mask w)

theorem handleOps_waithcr (fuel reg size unset mask : Nat) (w : World) (rest : List Event) :
    handleOps (waithcrEvents fuel reg size unset mask w ++ rest) = handleOps rest :=
  handleOps_quiet_append _ rest (waithcrEvents_quiet fuel reg size unset mask w)

theorem filter_waithcrEvents (fuel reg size unset mask : Nat) (w : World) :
    List.filter Event.isHandleOp (waithcrEvents fuel reg size unset mask w) = [] := by
  have h := handleOps_waithcr fuel reg size unset mask w []
  simpa [handleOps] using h

theorem selectBracketed_waithcr_nil (rca fuel reg size unset mask : Nat) (w : World) :
    selectBracketed rca (waithcrEvents fuel reg size unset mask w) = true := by
  have h := selectBracketed_waithcr rca fuel reg size unset mask w []
  simpa [selectBracketed] using h

/-- `__sd0_initio` is its two leading calls followed by one of its branches. -/
theorem initio_unfold (fuel : Nat) (w : World) :
    __sd0_initio fuel w =
      if toU32 (__sdio_getstatus (__sdio_resetcard w).2).1 &&& SDIO_STATUS_CARD_INSERTED = 0 then
        Run.done false (__sdio_getstatus (__sdio_resetcard w).2).2
      else if toU32 (__sdio_getstatus (__sdio_resetcard w).2).1
            &&& SDIO_STATUS_CARD_INITIALIZED ≠ 0 then
        initializedBranch
          { (__sdio_getstatus (__sdio_resetcard w).2).2 with
            s := { (__sdio_getstatus (__sdio_resetcard w).2).2.s with
              __sd0_sdhc :=
                if toU32 (__sdio_getstatus (__sdio_resetcard w).2).1
                    &&& SDIO_STATUS_CARD_SDHC ≠ 0 then 1 else 0 } }
      else resetBranch fuel (__sdio_getstatus (__sdio_resetcard w).2).2 := rfl

/-- The initialized branch: it always returns, the discipline holds, no handle
is touched, and the session changes only by the initialized flag, set exactly on
success. -/
theorem initializedBranch_summary (w : World) :
    (initializedBranch w).result? ≠ none ∧
    (initializedBranch w).world.trace = w.trace ++ newEvents w (initializedBranch w).world ∧
    selectBracketed w.s.__sd0_rca (newEvents w (initializedBranch w).world) = true ∧
    handleOps (newEvents w (initializedBranch w).world) = [] ∧
    (initializedBranch w).world.s
      = (if (initializedBranch w).result? = some true then { w.s with __sd0_initialized := 1 }
         else w.s) := by
  unfold initializedBranch __sd0_setbuswidth __sd0_setblocklength __sd0_select __sd0_deselect
      __sdio_setbuswidth __sdio_setclock __sdio_gethcr __sdio_sethcr
  simp only [sendcommand_ev, ipc_reply, ipc_session, ipc_ora]
  by_cases h0 : (w.ora 0).ret < 0
  · simp [h0, newEvents, selectBracketed, handleOps]
  by_cases h1 : (w.ora 1).ret < 0
  · simp [h0, h1, newEvents, selectBracketed, handleOps]
  by_cases h2 : (w.ora 2).ret < 0
  · simp [h0, h1, h2, newEvents, selectBracketed, handleOps]
  by_cases h3 : (w.ora 3).ret < 0
  · simp [h0, h1, h2, h3, newEvents, selectBracketed, handleOps, selectRequest]
  by_cases h4 : (w.ora 4).ret < 0
  · simp [h0, h1, h2, h3, h4, newEvents, selectBracketed, closesSelect, handleOps,
      selectRequest, deselectRequest, mkRequest]
  by_cases h5 : (w.ora 5).ret < 0
  · simp [h0, h1, h2, h3, h4, h5, newEvents, selectBracketed, closesSelect, handleOps,
      selectRequest, deselectRequest, mkRequest]
  by_cases h6 : (w.ora 6).ret < 0
  · simp [h0, h1, h2, h3, h4, h5, h6, newEvents, selectBracketed, closesSelect,
      handleOps, selectRequest, deselectRequest, mkRequest]
  · simp [h0, h1, h2, h3, h4, h5, h6, newEvents, selectBracketed, closesSelect,
      handleOps, selectRequest, deselectRequest, mkRequest]

/-- The reset branch: it never reports success and logs no command request.  If
it returns, it has closed the session's handle, reopened, and stored the result
of the reopen as the handle.  If it keeps spinning, it has touched no handle
and the session is as before. -/
theorem resetBranch_summary (fuel : Nat) (w : World) :
    (resetBranch fuel w).result? ≠ some true ∧
    (resetBranch fuel w).world.trace = w.trace ++ newEvents w (resetBranch fuel w).world ∧
    (∀ rca, selectBracketed rca (newEvents w (resetBranch fuel w).world) = true) ∧
    ((resetBranch fuel w).result? = some false →
      (∃ c, handleOps (newEvents w (resetBranch fuel w).world)
        = [Event.ipc (IpcCall.os_close w.s.__sd0_fd) c,
           Event.ipc (IpcCall.os_open _sd0_fs 1) (resetBranch fuel w).world.s.__sd0_fd]) ∧
      (resetBranch fuel w).world.s
        = { w.s with __sd0_fd := (resetBranch fuel w).world.s.__sd0_fd }) ∧
    ((resetBranch fuel w).result? = none →
      handleOps (newEvents w (resetBranch fuel w).world) = [] ∧
      (resetBranch fuel w).world.s = w.s) := by
  have ht := waithcr_trace fuel SDIOHCR_SOFTWARERESET 1 1 7
    (__sdio_sethcr SDIOHCR_SOFTWARERESET 1 7 w).2
  have hs := waithcr_session fuel SDIOHCR_SOFTWARERESET 1 1 7
    (__sdio_sethcr SDIOHCR_SOFTWARERESET 1 7 w).2
  simp only [resetBranch]
  cases h : __sdio_waithcr fuel SDIOHCR_SOFTWARERESET 1 1 7
      (__sdio_sethcr SDIOHCR_SOFTWARERESET 1 7 w).2 with
  | spinning w4 =>
    rw [h] at ht hs
    simp only [world_spinning, __sdio_sethcr, ipc_trace, ipc_session] at ht hs
    simp [newEvents, ht, hs, selectBracketed, handleOps, selectBracketed_waithcr,
      selectBracketed_waithcr_nil, filter_waithcrEvents]
  | done r w4 =>
    rw [h] at ht hs
    simp only [world_done, __sdio_sethcr, ipc_trace, ipc_session] at ht hs
    simp [newEvents, ht, hs, selectBracketed, handleOps, selectBracketed_waithcr,
      filter_waithcrEvents]

theorem newEvents_append (w w' : World) (new : List Event)
    (h : w'.trace = w.trace ++ new) : newEvents w w' = new := by
  unfold newEvents
  rw [h, List.drop_left]

theorem resetcard_world (w : World) :
    (__sdio_resetcard w).2
      = { w with
          s := { w.s with __sd0_rca := (__sdio_resetcard w).2.s.__sd0_rca },
          trace := w.trace ++
            [Event.ipc (IpcCall.os_ioctl w.s.__sd0_fd IOCTL_SDIO_RESETCARD IoBuf.null 0
              IoBuf.scratch 4) (w.ora 0).ret],
          ora := fun n => w.ora (n + 1) } := by
  unfold __sdio_resetcard
  by_cases h : (w.ora 0).ret < 0 <;> simp [h, ipc]

theorem getstatus_world (w : World) :
    (__sdio_getstatus w).2
      = { w with
          trace := w.trace ++
            [Event.ipc (IpcCall.os_ioctl w.s.__sd0_fd IOCTL_SDIO_GETSTATUS IoBuf.null 0
              IoBuf.scratch 4) (w.ora 0).ret],
          ora := fun n => w.ora (n + 1) } := by
  unfold __sdio_getstatus
  by_cases h : (w.ora 0).ret < 0 <;> simp [h, ipc]

theorem newEvents_trans (w w1 w2 : World) (a : List Event)
    (h1 : w1.trace = w.trace ++ a) (h2 : w2.trace = w1.trace ++ newEvents w1 w2) :
    w2.trace = w.trace ++ newEvents w w2 ∧ newEvents w w2 = a ++ newEvents w1 w2 := by
  have h : w2.trace = w.trace ++ (a ++ newEvents w1 w2) := by
    rw [h2, h1, List.append_assoc]
  have hn := newEvents_append w w2 _ h
  rw [hn]
  exact ⟨h, rfl⟩

theorem bringUpFacts_lift (w x : World) (r : Run Bool) (a : List Event)
    (hxt : x.trace = w.trace ++ a) (ha : ∀ e ∈ a, Event.quiet e = true)
    (hfd : x.s.__sd0_fd = w.s.__sd0_fd)
    (hinit : x.s.__sd0_initialized = w.s.__sd0_initialized)
    (hsdio : x.s.__sdio_initialized = w.s.__sdio_initialized)
    (h : bringUpFacts x r) : bringUpFacts w r := by
  obtain ⟨ht, hsel, hs, htrue, hfalse, hnone⟩ := h
  obtain ⟨ht', hn⟩ := newEvents_trans w x r.world a hxt ht
  have hops : handleOps (newEvents w r.world) = handleOps (newEvents x r.world) := by
    rw [hn]; exact handleOps_quiet_append a _ ha
  refine ⟨ht', ?_, by rw [hs, hsdio], ?_, ?_, ?_⟩
  · rw [hn, selectBracketed_quiet_append _ a _ ha]; exact hsel
  · intro hb
    obtain ⟨h1, h2, h3⟩ := htrue hb
    exact ⟨h1, by rw [h2, hfd], by rw [hops]; exact h3⟩
  · intro hb
    obtain ⟨h1, h2⟩ := hfalse hb
    refine ⟨by rw [h1, hinit], ?_⟩
    rcases h2 with ⟨h2, h3⟩ | ⟨c, h3⟩
    · exact Or.inl ⟨by rw [h2, hfd], by rw [hops]; exact h3⟩
    · exact Or.inr ⟨c, by rw [hops, h3, hfd]⟩
  · intro hb
    obtain ⟨h1, h2, h3⟩ := hnone hb
    exact ⟨by rw [h1, hinit], by rw [h2, hfd], by rw [hops]; exact h3⟩

theorem bringUpFacts_initialized (x : World) : bringUpFacts x (initializedBranch x) := by
  obtain ⟨hret, ht, hsel, hh, hs⟩ := initializedBranch_summary x
  refine ⟨ht, ?_, ?_, ?_, ?_, ?_⟩
  · have hrca : (initializedBranch x).world.s.__sd0_rca = x.s.__sd0_rca := by
      rw [hs]; split <;> rfl
    rw [hrca]; exact hsel
  · rw [hs]; split <;> rfl
  · intro hb
    rw [hs, if_pos hb]
    exact ⟨rfl, rfl, hh⟩
  · intro hb
    have hb' : ¬ (initializedBranch x).result? = some true := by rw [hb]; simp
    rw [hs, if_neg hb']
    exact ⟨rfl, Or.inl ⟨rfl, hh⟩⟩
  · intro hb
    exact absurd hb hret

theorem bringUpFacts_reset (fuel : Nat) (x : World) : bringUpFacts x (resetBranch fuel x) := by
  obtain ⟨hnt, ht, hsel, hfalse, hnone⟩ := resetBranch_summary fuel x
  refine ⟨ht, hsel _, ?_, ?_, ?_, ?_⟩
  · cases hr : (resetBranch fuel x).result? with
    | none => rw [(hnone hr).2]
    | some b =>
      cases b
      · rw [(hfalse hr).2]
      · exact absurd hr hnt
  · intro hb
    exact absurd hb hnt
  · intro hb
    obtain ⟨⟨c, hc⟩, hs⟩ := hfalse hb
    exact ⟨by rw [hs], Or.inr ⟨c, hc⟩⟩
  · intro hb
    obtain ⟨hh, hs⟩ := hnone hb
    exact ⟨by rw [hs], by rw [hs], hh⟩

theorem bringUpFacts_done_false (x : World) : bringUpFacts x (Run.done false x) := by
  refine ⟨by simp [newEvents], by simp [newEvents, selectBracketed], rfl, ?_, ?_, ?_⟩
  · intro hb; simp at hb
  · intro _; exact ⟨rfl, Or.inl ⟨rfl, by simp [newEvents, handleOps]⟩⟩
  · intro hb; simp at hb

/-- Facts about a continuation carry over the two leading calls of
`__sd0_initio`, which log reset-card and get-status and may change only the card
address and the high-capacity flag. -/
theorem bringUpFacts_after_head (w : World) (rca : Nat) (sdhc : Int)
    (f : World → Run Bool) (hf : ∀ x, bringUpFacts x (f x)) :
    bringUpFacts w (f
      { s := { w.s with __sd0_rca := rca, __sd0_sdhc := sdhc },
        trace := w.trace ++
          [Event.ipc (IpcCall.os_ioctl w.s.__sd0_fd IOCTL_SDIO_RESETCARD IoBuf.null 0
              IoBuf.scratch 4) (w.ora 0).ret,
           Event.ipc (IpcCall.os_ioctl w.s.__sd0_fd IOCTL_SDIO_GETSTATUS IoBuf.null 0
              IoBuf.scratch 4) (w.ora 1).ret],
        ora := fun n => w.ora (n + 2),
        timer := w.timer }) := by
  refine bringUpFacts_lift w
    { s := { w.s with __sd0_rca := rca, __sd0_sdhc := sdhc },
      trace := w.trace ++
        [Event.ipc (IpcCall.os_ioctl w.s.__sd0_fd IOCTL_SDIO_RESETCARD IoBuf.null 0
            IoBuf.scratch 4) (w.ora 0).ret,
         Event.ipc (IpcCall.os_ioctl w.s.__sd0_fd IOCTL_SDIO_GETSTATUS IoBuf.null 0
            IoBuf.scratch 4) (w.ora 1).ret],
      ora := fun n => w.ora (n + 2),
      timer := w.timer } _ _ rfl ?_ rfl rfl rfl (hf _)
  intro e he
  simp only [List.mem_cons, List.mem_singleton, List.not_mem_nil, or_false] at he
  rcases he with rfl | rfl <;> simp [Event.quiet]

/-- Everything the later proofs need to know about one run of `__sd0_initio`. -/
theorem initio_summary (fuel : Nat) (w : World) : bringUpFacts w (__sd0_initio fuel w) := by
  obtain ⟨rca, hw2⟩ : ∃ rca, (__sdio_getstatus (__sdio_resetcard w).2).2
      = { w with
          s := { w.s with __sd0_rca := rca },
          trace := w.trace ++
            [Event.ipc (IpcCall.os_ioctl w.s.__sd0_fd IOCTL_SDIO_RESETCARD IoBuf.null 0
                IoBuf.scratch 4) (w.ora 0).ret,
             Event.ipc (IpcCall.os_ioctl w.s.__sd0_fd IOCTL_SDIO_GETSTATUS IoBuf.null 0
                IoBuf.scratch 4) (w.ora 1).ret],
          ora := fun n => w.ora (n + 2) } := by
    refine ⟨(__sdio_resetcard w).2.s.__sd0_rca, ?_⟩
    rw [getstatus_world, resetcard_world w]
    simp
  rw [initio_unfold]
  generalize (__sdio_getstatus (__sdio_resetcard w).2).1 = st at *
  rw [hw2]
  by_cases hins : toU32 st &&& SDIO_STATUS_CARD_INSERTED = 0
  · rw [if_pos hins]
    exact bringUpFacts_after_head w rca w.s.__sd0_sdhc (fun x => Run.done false x)
      bringUpFacts_done_false
  rw [if_neg hins]
  by_cases hini : toU32 st &&& SDIO_STATUS_CARD_INITIALIZED ≠ 0
  · rw [if_pos hini]
    exact bringUpFacts_after_head w rca _ initializedBranch bringUpFacts_initialized
  · rw [if_neg hini]
    exact bringUpFacts_after_head w rca w.s.__sd0_sdhc (resetBranch fuel)
      (bringUpFacts_reset fuel)

/-! ## C3: select is always paired with one deselect -/

/-- The discipline for `sdio_Transfer`. -/
theorem transfer_bracketed (cmd sector numSectors buffer : Nat) (w : World) :
    (sdio_Transfer cmd sector numSectors buffer w).2.trace
      = w.trace ++ newEvents w (sdio_Transfer cmd sector numSectors buffer w).2 ∧
    selectBracketed w.s.__sd0_rca
      (newEvents w (sdio_Transfer cmd sector numSectors buffer w).2) = true := by
  unfold sdio_Transfer __sd0_select __sd0_deselect
  simp only [sendcommand_ev]
  by_cases ha : buffer &&& 0x1F ≠ 0
  · simp [ha, newEvents, gpio_set_on, selectBracketed]
  by_cases hb : buffer = 0
  · simp [hb, newEvents, selectBracketed]
  by_cases h0 : (w.ora 0).ret < 0
  · simp [ha, hb, h0, newEvents, selectBracketed, selectRequest]
  · simp [ha, hb, h0, newEvents, selectBracketed, closesSelect, selectRequest,
      deselectRequest, mkRequest]

/-- C3: for every world (so for every outcome of the IPC calls and every
behaviour of the tick counter), all arguments and every spin budget, the events
appended by `sdio_Transfer`, and likewise the events appended by `__sd0_initio`
(on every branch, the already-initialized one included, and whether the call
has returned or is still spinning), obey the select/deselect discipline
`selectBracketed`: events before the select carry no command; if the service
rejects the select (CMD7 with the card address) nothing follows it, in
particular no deselect; if the service accepts it, exactly one deselect (CMD7
with argument 0, no data) follows, as the last event before the function
returns, whether or not set-block-length, the bus-width commands or the data
command in between succeed; and when no select is issued no command at all,
hence no deselect, is issued. -/
theorem select_paired_with_deselect (fuel cmd sector numSectors buffer : Nat) (w : World) :
    (∃ new, (sdio_Transfer cmd sector numSectors buffer w).2.trace = w.trace ++ new ∧
      selectBracketed w.s.__sd0_rca new = true) ∧
    (∃ new, (__sd0_initio fuel w).world.trace = w.trace ++ new ∧
      selectBracketed (__sd0_initio fuel w).world.s.__sd0_rca new = true) :=
  ⟨⟨_, (transfer_bracketed cmd sector numSectors buffer w).1,
      (transfer_bracketed cmd sector numSectors buffer w).2⟩,
   ⟨_, (initio_summary fuel w).1, (initio_summary fuel w).2.1⟩⟩

/-! ## Handle ledger -/

theorem handleStep_skip (st : Option (List Int)) (e : Event)
    (h : Event.isHandleOp e = false) : handleStep st e = st := by
  cases st with
  | none => rfl
  | some live =>
    cases e with
    | ipc c r => cases c <;> simp_all [handleStep, Event.isHandleOp]
    | get_timer v => rfl
    | gpio_set_on p => rfl

theorem foldl_handleStep_handleOps (new : List Event) (st : Option (List Int)) :
    new.foldl handleStep st = (handleOps new).foldl handleStep st := by
  induction new generalizing st with
  | nil => rfl
  | cons e new ih =>
    unfold handleOps at ih ⊢
    cases h : Event.isHandleOp e
    · rw [List.foldl_cons, List.filter_cons_of_neg (by simp [h]), handleStep_skip st e h]
      exact ih st
    · rw [List.foldl_cons, List.filter_cons_of_pos h, List.foldl_cons]
      exact ih _

theorem countOpens_append (a b : List Event) :
    countOpens (a ++ b) = countOpens a + countOpens b := by
  induction a with
  | nil => simp [countOpens]
  | cons e a ih =>
    cases e with
    | ipc c r => cases c <;> simp [countOpens, ih, Nat.add_assoc]
    | get_timer v => simp [countOpens, ih]
    | gpio_set_on p => simp [countOpens, ih]

theorem countCloses_append (a b : List Event) :
    countCloses (a ++ b) = countCloses a + countCloses b := by
  induction a with
  | nil => simp [countCloses]
  | cons e a ih =>
    cases e with
    | ipc c r => cases c <;> simp [countCloses, ih, Nat.add_assoc]
    | get_timer v => simp [countCloses, ih]
    | gpio_set_on p => simp [countCloses, ih]

theorem countOpens_handleOps (tr : List Event) : countOpens (handleOps tr) = countOpens tr := by
  induction tr with
  | nil => rfl
  | cons e tr ih =>
    unfold handleOps at ih ⊢
    cases e with
    | ipc c r => cases c <;> simp [countOpens, ih, List.filter_cons, Event.isHandleOp]
    | get_timer v => simp [countOpens, ih, List.filter_cons, Event.isHandleOp]
    | gpio_set_on p => simp [countOpens, ih, List.filter_cons, Event.isHandleOp]

theorem countCloses_handleOps (tr : List Event) :
    countCloses (handleOps tr) = countCloses tr := by
  induction tr with
  | nil => rfl
  | cons e tr ih =>
    unfold handleOps at ih ⊢
    cases e with
    | ipc c r => cases c <;> simp [countCloses, ih, List.filter_cons, Event.isHandleOp]
    | get_timer v => simp [countCloses, ih, List.filter_cons, Event.isHandleOp]
    | gpio_set_on p => simp [countCloses, ih, List.filter_cons, Event.isHandleOp]

theorem handleOps_append (a b : List Event) : handleOps (a ++ b) = handleOps a ++ handleOps b := by
  unfold handleOps
  exact List.filter_append a b

theorem ledgerOk_open (H : List Event) (live : List Int) (path : String) (mode : Nat)
    (r : Int) (h : ledgerOk H live) :
    ledgerOk (H ++ [Event.ipc (IpcCall.os_open path mode) r])
      (if 0 ≤ r then r :: live else live) := by
  obtain ⟨h1, h2⟩ := h
  unfold ledgerOk
  rw [List.foldl_append, h1, countOpens_append, countCloses_append]
  by_cases hr : 0 ≤ r
  · simp [handleStep, countOpens, countCloses, hr]
    omega
  · simp [handleStep, countOpens, countCloses, hr]
    omega

theorem ledgerOk_close (H : List Event) (fd c : Int) (h : ledgerOk H [fd]) :
    ledgerOk (H ++ [Event.ipc (IpcCall.os_close fd) c]) [] := by
  obtain ⟨h1, h2⟩ := h
  unfold ledgerOk
  rw [List.foldl_append, h1, countOpens_append, countCloses_append]
  simp [handleStep, countOpens, countCloses] at h2 ⊢
  omega

/-! ## Lifecycle steps -/

theorem lifecycleInv_true (w : World) :
    lifecycleInv true w ↔
      (w.s.__sd0_initialized = 1 ∧ w.s.__sdio_initialized = 1 ∧ 0 ≤ w.s.__sd0_fd ∧
        ledgerOk (handleOps w.trace) [w.s.__sd0_fd]) := by
  simp [lifecycleInv]

theorem lifecycleInv_false (w : World) :
    lifecycleInv false w ↔
      (w.s.__sd0_initialized = 0 ∧ w.s.__sdio_initialized = 0 ∧
        ledgerOk (handleOps w.trace) []) := by
  simp [lifecycleInv]

theorem handleOps_snoc_close (tr : List Event) (fd c : Int) :
    handleOps (tr ++ [Event.ipc (IpcCall.os_close fd) c])
      = handleOps tr ++ [Event.ipc (IpcCall.os_close fd) c] := by
  rw [handleOps_append]; rfl

theorem handleOps_snoc_open (tr : List Event) (path : String) (mode : Nat) (r : Int) :
    handleOps (tr ++ [Event.ipc (IpcCall.os_open path mode) r])
      = handleOps tr ++ [Event.ipc (IpcCall.os_open path mode) r] := by
  rw [handleOps_append]; rfl

theorem startup_started (fuel : Nat) (w : World) (h : lifecycleInv true w) :
    sdio_Startup fuel w = Run.done true w := by
  have h2 : w.s.__sdio_initialized = 1 := ((lifecycleInv_true w).mp h).2.1
  unfold sdio_Startup
  rw [if_pos h2]

theorem shutdown_not_started (w : World) (h : lifecycleInv false w) :
    sdio_Shutdown w = (false, w) := by
  have h1 : w.s.__sd0_initialized = 0 := ((lifecycleInv_false w).mp h).1
  unfold sdio_Shutdown
  rw [if_pos h1]

/-- The world `sdio_Deinitialize` leaves when the handle is not negative. -/
theorem deinitialize_open (w : World) (h : 0 ≤ w.s.__sd0_fd) :
    ( sdio_Deinitialize w).2
      = { w with
          s := { w.s with __sdio_initialized := 0 },
          trace := w.trace ++ [Event.ipc (IpcCall.os_close w.s.__sd0_fd) (w.ora 0).ret],
          ora := fun n => w.ora (n + 1) } := by
  have h' : w.s.__sd0_fd ≥ 0 := h
  unfold sdio_Deinitialize
  simp only [h', if_true]
  rfl

/-- The world `sdio_Deinitialize` leaves when the handle is negative. -/
theorem deinitialize_closed (w : World) (h : ¬ 0 ≤ w.s.__sd0_fd) :
    ( sdio_Deinitialize w).2 = { w with s := { w.s with __sdio_initialized := 0 } } := by
  have h' : ¬ w.s.__sd0_fd ≥ 0 := h
  unfold sdio_Deinitialize
  simp only [h', if_false]

theorem shutdown_started (w : World) (h : lifecycleInv true w) :
    (sdio_Shutdown w).1 = true ∧ lifecycleInv false (sdio_Shutdown w).2 := by
  obtain ⟨h1, h2, h3, h4⟩ := (lifecycleInv_true w).mp h
  have hne : ¬ w.s.__sd0_initialized = 0 := by omega
  unfold sdio_Shutdown
  rw [if_neg hne]
  refine ⟨rfl, ?_⟩
  rw [lifecycleInv_false]
  simp only [deinitialize_open w h3]
  refine ⟨trivial, trivial, ?_⟩
  rw [handleOps_snoc_close]
  exact ledgerOk_close _ _ _ h4

/-- After the open of a start-up succeeded, bring-up and tear-down keep the
ledger balanced; while bring-up is still spinning the opened handle is the one
handle open. -/
theorem startup_after_open (fuel : Nat) (w1 : World) (h1 : w1.s.__sd0_initialized = 0)
    (hfd : 0 ≤ w1.s.__sd0_fd) (hl : ledgerOk (handleOps w1.trace) [w1.s.__sd0_fd]) :
    ((__sd0_initio fuel w1).result? = some false →
      lifecycleInv false ( sdio_Deinitialize (__sd0_initio fuel w1).world).2) ∧
    ((__sd0_initio fuel w1).result? = some true →
      lifecycleInv true { (__sd0_initio fuel w1).world with
        s := { (__sd0_initio fuel w1).world.s with __sdio_initialized := 1 } }) ∧
    ((__sd0_initio fuel w1).result? = none →
      ledgerOk (handleOps (__sd0_initio fuel w1).world.trace) [w1.s.__sd0_fd]) := by
  obtain ⟨ht, -, -, htrue, hfalse, hnone⟩ := initio_summary fuel w1
  refine ⟨?_, ?_, ?_⟩
  · intro hb
    obtain ⟨hi, hcase⟩ := hfalse hb
    rw [lifecycleInv_false]
    rcases hcase with ⟨hfd', hh⟩ | ⟨c, hh⟩
    · have hge : 0 ≤ (__sd0_initio fuel w1).world.s.__sd0_fd := by rw [hfd']; exact hfd
      simp only [deinitialize_open _ hge]
      refine ⟨by rw [hi]; exact h1, trivial, ?_⟩
      rw [handleOps_snoc_close, ht, handleOps_append, hh, List.append_nil, hfd']
      exact ledgerOk_close _ _ _ hl
    · have hl2 := ledgerOk_open _ _ _sd0_fs 1 (__sd0_initio fuel w1).world.s.__sd0_fd
        (ledgerOk_close _ _ c hl)
      have hops : handleOps (__sd0_initio fuel w1).world.trace
          = handleOps w1.trace ++ [Event.ipc (IpcCall.os_close w1.s.__sd0_fd) c]
              ++ [Event.ipc (IpcCall.os_open _sd0_fs 1)
                    (__sd0_initio fuel w1).world.s.__sd0_fd] := by
        rw [ht, handleOps_append, hh]
        simp
      by_cases hge : 0 ≤ (__sd0_initio fuel w1).world.s.__sd0_fd
      · rw [if_pos hge] at hl2
        simp only [deinitialize_open _ hge]
        refine ⟨by rw [hi]; exact h1, trivial, ?_⟩
        rw [handleOps_snoc_close, hops]
        exact ledgerOk_close _ _ _ hl2
      · rw [if_neg hge] at hl2
        simp only [deinitialize_closed _ hge]
        refine ⟨by rw [hi]; exact h1, trivial, ?_⟩
        rw [hops]
        exact hl2
  · intro hb
    obtain ⟨hi, hfd', hh⟩ := htrue hb
    rw [lifecycleInv_true]
    refine ⟨hi, rfl, by rw [hfd']; exact hfd, ?_⟩
    show ledgerOk (handleOps (__sd0_initio fuel w1).world.trace)
      [(__sd0_initio fuel w1).world.s.__sd0_fd]
    rw [ht, handleOps_append, hh, List.append_nil, hfd']
    exact hl
  · intro hb
    obtain ⟨-, -, hh⟩ := hnone hb
    rw [ht, handleOps_append, hh, List.append_nil]
    exact hl

theorem startup_not_started (fuel : Nat) (w : World) (h : lifecycleInv false w) :
    runInv (sdio_Startup fuel w) := by
  obtain ⟨h1, h2, h3⟩ := (lifecycleInv_false w).mp h
  have hne : ¬ w.s.__sdio_initialized = 1 := by omega
  have hl := ledgerOk_open _ _ _sd0_fs 0 (w.ora 0).ret h3
  unfold sdio_Startup
  rw [if_neg hne]
  by_cases hr : (w.ora 0).ret < 0
  · rw [if_neg (not_le.mpr hr)] at hl
    simp only [ipc_reply, hr, if_true]
    show lifecycleInv false _
    rw [lifecycleInv_false, deinitialize_closed _ (by simpa using hr)]
    refine ⟨h1, rfl, ?_⟩
    show ledgerOk (handleOps (w.trace ++ [Event.ipc (IpcCall.os_open _sd0_fs 0) (w.ora 0).ret])) []
    rw [handleOps_snoc_open]
    exact hl
  · have hr' : 0 ≤ (w.ora 0).ret := not_lt.mp hr
    rw [if_pos hr'] at hl
    simp only [ipc_reply, hr, if_false]
    obtain ⟨kf, kt, kn⟩ := startup_after_open fuel
      { w with
        s := { w.s with __sd0_fd := (w.ora 0).ret },
        trace := w.trace ++ [Event.ipc (IpcCall.os_open _sd0_fs 0) (w.ora 0).ret],
        ora := fun n => w.ora (n + 1) }
      h1 hr' (by rw [handleOps_snoc_open]; exact hl)
    cases hi : __sd0_initio fuel
      { w with
        s := { w.s with __sd0_fd := (w.ora 0).ret },
        trace := w.trace ++ [Event.ipc (IpcCall.os_open _sd0_fs 0) (w.ora 0).ret],
        ora := fun n => w.ora (n + 1) } with
    | spinning w2 =>
      rw [hi] at kn
      have hgoal : runInv (Run.spinning w2 : Run Bool) := ⟨_, kn rfl⟩
      simpa [ipc, hi] using hgoal
    | done b w2 =>
      rw [hi] at kf kt
      cases b
      · have hgoal : runInv (Run.done false ( sdio_Deinitialize w2).2) := kf rfl
        simpa [ipc, hi] using hgoal
      · have hgoal : runInv (Run.done true
            { w2 with s := { w2.s with __sdio_initialized := 1 } }) := kt rfl
        simpa [ipc, hi] using hgoal

theorem op_step (fuel : Nat) (op : Op) (g : Bool) (w : World) (h : lifecycleInv g w) :
    (∀ b w1, op.run fuel w = Run.done b w1 → lifecycleInv (op.started b g) w1) ∧
    (∀ w1, op.run fuel w = Run.spinning w1 → ∃ live, ledgerOk (handleOps w1.trace) live) := by
  cases op <;> cases g
  · have hs := startup_not_started fuel w h
    constructor
    · intro b w1 hrun
      rw [show Op.run fuel Op.startup w = sdio_Startup fuel w from rfl] at hrun
      rw [hrun] at hs
      cases b <;> exact hs
    · intro w1 hrun
      rw [show Op.run fuel Op.startup w = sdio_Startup fuel w from rfl] at hrun
      rw [hrun] at hs
      exact hs
  · have hs := startup_started fuel w h
    constructor
    · intro b w1 hrun
      rw [show Op.run fuel Op.startup w = sdio_Startup fuel w from rfl, hs] at hrun
      cases hrun
      exact h
    · intro w1 hrun
      rw [show Op.run fuel Op.startup w = sdio_Startup fuel w from rfl, hs] at hrun
      cases hrun
  · have hs := shutdown_not_started w h
    constructor
    · intro b w1 hrun
      rw [show Op.run fuel Op.shutdown w
        = Run.done (sdio_Shutdown w).1 (sdio_Shutdown w).2 from rfl, hs] at hrun
      cases hrun
      exact h
    · intro w1 hrun
      cases hrun
  · obtain ⟨hb, hinv⟩ := shutdown_started w h
    constructor
    · intro b w1 hrun
      rw [show Op.run fuel Op.shutdown w
        = Run.done (sdio_Shutdown w).1 (sdio_Shutdown w).2 from rfl, hb] at hrun
      cases hrun
      exact hinv
    · intro w1 hrun
      cases hrun

theorem runOps_inv (fuel : Nat) (ops : List Op) (g : Bool) (w : World)
    (h : lifecycleInv g w) : runInv (runOps fuel ops g w) := by
  induction ops generalizing g w with
  | nil => exact h
  | cons op ops ih =>
    rw [runOps]
    obtain ⟨hd, hsp⟩ := op_step fuel op g w h
    cases hrun : op.run fuel w with
    | spinning w1 => exact hsp w1 hrun
    | done b w1 => exact ih _ _ (hd b w1 hrun)

theorem initial_inv (ora : Nat → Reply) (timer : Nat → Nat) :
    lifecycleInv false (World.initial ora timer) := by
  rw [lifecycleInv_false]
  exact ⟨rfl, rfl, rfl, rfl⟩

theorem ledgerOk_trace (tr : List Event) (live : List Int) (h : ledgerOk (handleOps tr) live) :
    handleRun tr = some live ∧ countCloses tr + live.length = countOpens tr := by
  obtain ⟨h1, h2⟩ := h
  rw [countOpens_handleOps, countCloses_handleOps] at h2
  refine ⟨?_, h2⟩
  unfold handleRun
  rw [foldl_handleStep_handleOps]
  exact h1

/-! ## C8: shutdown of a driver that is not started -/

/-- C8: in every world reached from the initial world by any sequence of
`sdio_Startup` and `sdio_Shutdown` calls that have returned, against any
service and any tick counter, if no `sdio_Startup` has returned true since the
last `sdio_Shutdown` that returned true (or ever), then `sdio_Shutdown` returns
false and gives back the world unchanged: no event is logged, no reply of the
service is consumed (so no IPC call, in particular no close), and the session is
unchanged. -/
theorem sdio_Shutdown_when_not_started (ora : Nat → Reply) (timer : Nat → Nat)
    (fuel : Nat) (ops : List Op)
    (h : (runOps fuel ops false (World.initial ora timer)).result? = some false) :
    sdio_Shutdown (runOps fuel ops false (World.initial ora timer)).world
      = (false, (runOps fuel ops false (World.initial ora timer)).world) := by
  have hinv := runOps_inv fuel ops false (World.initial ora timer) (initial_inv ora timer)
  cases hrun : runOps fuel ops false (World.initial ora timer) with
  | spinning w => rw [hrun] at h; simp at h
  | done g w =>
    rw [hrun] at h hinv
    simp only [result?_done, Option.some.injEq] at h
    subst h
    exact shutdown_not_started w hinv

/-- Witness for C8: a successful start-up followed by a successful shutdown
leaves the driver not started; a further shutdown returns false and changes
nothing. -/
theorem sdio_Shutdown_when_not_started_witness :
    (runOps 0 [Op.startup, Op.shutdown] false
        (World.initial (goodService 0x110001) (counterFrom 0))).result? = some false ∧
    sdio_Shutdown
        (runOps 0 [Op.startup, Op.shutdown] false
          (World.initial (goodService 0x110001) (counterFrom 0))).world
      = (false,
          (runOps 0 [Op.startup, Op.shutdown] false
            (World.initial (goodService 0x110001) (counterFrom 0))).world) :=
  ⟨by decide, sdio_Shutdown_when_not_started _ _ _ _ (by decide)⟩

/-! ## C9: every handle is closed exactly once -/

/-- C9: for every service, every tick counter, every spin budget and every
sequence of `sdio_Startup` and `sdio_Shutdown` calls from the initial world, the
handle ledger of the trace never fails, whether the sequence has run to its end
or a call in it is still spinning: each close names a handle that is open at
that moment, so no handle is closed twice and the negative result of a failed
open is never closed.  Moreover, when the sequence has run to its end, for every
further call, if it is a `sdio_Startup` that returns false or a `sdio_Shutdown`
that returns true, then afterwards no handle is open and the number of close
calls equals the number of successful opens. -/
theorem handles_closed_exactly_once (ora : Nat → Reply) (timer : Nat → Nat)
    (fuel : Nat) (ops : List Op) :
    handleRun (runOps fuel ops false (World.initial ora timer)).world.trace ≠ none ∧
    ∀ (fuel' : Nat) (op : Op),
      (runOps fuel ops false (World.initial ora timer)).result? ≠ none →
      ((op = Op.startup ∧
          (op.run fuel' (runOps fuel ops false (World.initial ora timer)).world).result?
            = some false) ∨
       (op = Op.shutdown ∧
          (op.run fuel' (runOps fuel ops false (World.initial ora timer)).world).result?
            = some true)) →
      handleRun
          (op.run fuel' (runOps fuel ops false (World.initial ora timer)).world).world.trace
        = some [] ∧
      countCloses
          (op.run fuel' (runOps fuel ops false (World.initial ora timer)).world).world.trace
        = countOpens
          (op.run fuel' (runOps fuel ops false (World.initial ora timer)).world).world.trace := by
  have hinv := runOps_inv fuel ops false (World.initial ora timer) (initial_inv ora timer)
  cases hrun : runOps fuel ops false (World.initial ora timer) with
  | spinning w =>
    rw [hrun] at hinv
    obtain ⟨live, hl⟩ := hinv
    refine ⟨?_, ?_⟩
    · rw [world_spinning, (ledgerOk_trace _ _ hl).1]
      simp
    · intro fuel' op hdone
      simp at hdone
  | done g w =>
    rw [hrun] at hinv
    have hinv' : lifecycleInv g w := hinv
    simp only [world_done]
    constructor
    · cases g
      · rw [(ledgerOk_trace _ _ ((lifecycleInv_false w).mp hinv').2.2).1]
        simp
      · rw [(ledgerOk_trace _ _ ((lifecycleInv_true w).mp hinv').2.2.2).1]
        simp
    · intro fuel' op _ hop
      obtain ⟨hd, -⟩ := op_step fuel' op g w hinv'
      cases hr : op.run fuel' w with
      | spinning w1 =>
        rw [hr] at hop
        simp at hop
      | done b w1 =>
        rw [hr] at hop
        simp only [result?_done, Option.some.injEq] at hop
        have hstep := hd b w1 hr
        have hfalse : op.started b g = false := by
          rcases hop with ⟨rfl, hb⟩ | ⟨rfl, hb⟩
          · cases g
            · rw [hb]; rfl
            · have hs := startup_started fuel' w hinv'
              rw [show Op.run fuel' Op.startup w = sdio_Startup fuel' w from rfl, hs] at hr
              cases hr
              exact absurd hb (by simp)
          · rw [hb]; rfl
        rw [hfalse] at hstep
        have hl := ledgerOk_trace _ _ ((lifecycleInv_false _).mp hstep).2.2
        exact ⟨hl.1, by simpa using hl.2⟩

/-! ## C5: the bounded register poll -/

theorem registerReads_append (a b : List Event) :
    registerReads (a ++ b) = registerReads a + registerReads b := by
  induction a with
  | nil => simp [registerReads]
  | cons e a ih =>
    cases e with
    | ipc c r => cases c <;> simp [registerReads, ih, Nat.add_assoc]
    | get_timer v => simp [registerReads, ih]
    | gpio_set_on p => simp [registerReads, ih]

/-- The spin loop of `udelay` touches neither the session nor the service, and
logs no register read. -/
theorem udelay_spin_frame (tmr fuel : Nat) (w : World) :
    (udelay_spin tmr fuel w).world.s = w.s ∧
    (udelay_spin tmr fuel w).world.ora = w.ora ∧
    registerReads (udelay_spin tmr fuel w).world.trace = registerReads w.trace := by
  induction fuel generalizing w with
  | zero => exact ⟨rfl, rfl, rfl⟩
  | succ f ih =>
    rw [udelay_spin]
    split
    · obtain ⟨h1, h2, h3⟩ := ih (get_timer w).2
      refine ⟨h1, h2, ?_⟩
      rw [h3]
      simp [get_timer, registerReads_append, registerReads]
    · exact ⟨rfl, rfl, by simp [get_timer, registerReads_append, registerReads]⟩

theorem udelay_frame (fuel : Nat) (usec : Int) (w : World) :
    (udelay fuel usec w).world.s = w.s ∧
    (udelay fuel usec w).world.ora = w.ora ∧
    registerReads (udelay fuel usec w).world.trace = registerReads w.trace := by
  obtain ⟨h1, h2, h3⟩ := udelay_spin_frame (toU32 (((get_timer w).1 : Int) + 2 * usec)) fuel
    (get_timer w).2
  refine ⟨h1, h2, ?_⟩
  show registerReads (udelay_spin _ fuel (get_timer w).2).world.trace = _
  rw [h3]
  simp [get_timer, registerReads_append, registerReads]

/-- With target `0xFFFFFFFF` the spin loop of `udelay` never exits: no 32-bit
counter value exceeds the target. -/
theorem udelay_spin_stuck (fuel : Nat) (w : World) :
    (udelay_spin 4294967295 fuel w).result? = none := by
  induction fuel generalizing w with
  | zero => rfl
  | succ f ih =>
    rw [udelay_spin]
    have h : (get_timer w).1 ≤ 4294967295 := by
      show w.timer 0 % 4294967296 ≤ 4294967295
      omega
    rw [if_pos h]
    exact ih _

/-- The loop logic of `__sdio_waithcr` taken by itself: if the register reads
succeed, the condition holds on none of them, and the call returns, then it
returns -1 after exactly `tries` register reads. -/
theorem waithcr_loop_timeout_if_returns (fuel reg size unset mask : Nat) (tries : Nat)
    (w w1 : World) (r : Int)
    (hret : ∀ j, j < tries → 0 ≤ (w.ora j).ret)
    (hcond : ∀ j, j < tries → ¬ pollCond unset mask ((w.ora j).out % 4294967296))
    (h : __sdio_waithcr_loop fuel reg size unset mask tries w = Run.done r w1) :
    r = -1 ∧ w1.ora = (fun n => w.ora (n + tries)) ∧
    registerReads w1.trace = registerReads w.trace + tries := by
  induction tries generalizing w with
  | zero =>
    rw [__sdio_waithcr_loop] at h
    cases h
    exact ⟨rfl, rfl, rfl⟩
  | succ t ih =>
    have h0 : ¬ (w.ora 0).ret < 0 := not_lt.mpr (hret 0 (Nat.succ_pos t))
    have c0 := hcond 0 (Nat.succ_pos t)
    unfold pollCond at c0
    rw [__sdio_waithcr_loop] at h
    simp only [__sdio_gethcr, ipc_reply, h0, if_false, c0] at h
    obtain ⟨hs, ho, hr⟩ := udelay_frame fuel 10000
      (ipc (IpcCall.os_ioctl w.s.__sd0_fd IOCTL_SDIO_READHCREG
        (IoBuf.words [reg, 0, 0, size, 0, 0]) 24 IoBuf.scratch 4) w).2
    cases hu : udelay fuel 10000
      (ipc (IpcCall.os_ioctl w.s.__sd0_fd IOCTL_SDIO_READHCREG
        (IoBuf.words [reg, 0, 0, size, 0, 0]) 24 IoBuf.scratch 4) w).2 with
    | spinning w2 =>
      rw [hu] at h
      cases h
    | done u w2 =>
      rw [hu] at h ho hr
      simp only [world_done, ipc_ora, ipc_trace] at ho hr
      obtain ⟨k1, k2, k3⟩ := ih w2
        (fun j hj => by rw [ho]; exact hret (j + 1) (Nat.succ_lt_succ hj))
        (fun j hj => by rw [ho]; exact hcond (j + 1) (Nat.succ_lt_succ hj)) h
      refine ⟨k1, ?_, ?_⟩
      · rw [k2, ho]
        funext n
        show w.ora (n + t + 1) = w.ora (n + (t + 1))
        rfl
      · rw [k3, hr, registerReads_append]
        simp [registerReads]
        omega

/-- The loop logic of `__sdio_waithcr` taken by itself: if the register reads
succeed, the condition fails on the first `k` of them and holds on the next, and
the call returns, then it returns 0 after exactly `k + 1` register reads, the
last event being that read. -/
theorem waithcr_loop_success_if_returns (fuel reg size unset mask : Nat) (k tries : Nat)
    (w w1 : World) (r : Int) (hk : k < tries)
    (hret : ∀ j, j ≤ k → 0 ≤ (w.ora j).ret)
    (hcond : ∀ j, j < k → ¬ pollCond unset mask ((w.ora j).out % 4294967296))
    (hlast : pollCond unset mask ((w.ora k).out % 4294967296))
    (h : __sdio_waithcr_loop fuel reg size unset mask tries w = Run.done r w1) :
    r = 0 ∧ w1.ora = (fun n => w.ora (n + (k + 1))) ∧
    registerReads w1.trace = registerReads w.trace + (k + 1) ∧
    w1.trace.getLast? = some (readEvent w.s.__sd0_fd reg size (w.ora k)) := by
  induction k generalizing w tries with
  | zero =>
    obtain ⟨t, rfl⟩ : ∃ t, tries = t + 1 := ⟨tries - 1, by omega⟩
    have h0 : ¬ (w.ora 0).ret < 0 := not_lt.mpr (hret 0 (Nat.le_refl 0))
    unfold pollCond at hlast
    rw [__sdio_waithcr_loop] at h
    simp only [__sdio_gethcr, ipc_reply, h0, if_false, hlast, if_true] at h
    cases h
    refine ⟨rfl, rfl, ?_, ?_⟩
    · simp [registerReads_append, registerReads]
    · simp [readEvent]
  | succ k ih =>
    obtain ⟨t, rfl⟩ : ∃ t, tries = t + 1 := ⟨tries - 1, by omega⟩
    have h0 : ¬ (w.ora 0).ret < 0 := not_lt.mpr (hret 0 (Nat.zero_le _))
    have c0 := hcond 0 (Nat.succ_pos k)
    unfold pollCond at c0
    rw [__sdio_waithcr_loop] at h
    simp only [__sdio_gethcr, ipc_reply, h0, if_false, c0] at h
    obtain ⟨hs, ho, hr⟩ := udelay_frame fuel 10000
      (ipc (IpcCall.os_ioctl w.s.__sd0_fd IOCTL_SDIO_READHCREG
        (IoBuf.words [reg, 0, 0, size, 0, 0]) 24 IoBuf.scratch 4) w).2
    cases hu : udelay fuel 10000
      (ipc (IpcCall.os_ioctl w.s.__sd0_fd IOCTL_SDIO_READHCREG
        (IoBuf.words [reg, 0, 0, size, 0, 0]) 24 IoBuf.scratch 4) w).2 with
    | spinning w2 =>
      rw [hu] at h
      cases h
    | done u w2 =>
      rw [hu] at h hs ho hr
      simp only [world_done, ipc_ora, ipc_trace, ipc_session] at hs ho hr
      obtain ⟨k1, k2, k3, k4⟩ := ih t w2 (by omega)
        (fun j hj => by rw [ho]; exact hret (j + 1) (Nat.succ_le_succ hj))
        (fun j hj => by rw [ho]; exact hcond (j + 1) (Nat.succ_lt_succ hj))
        (by rw [ho]; exact hlast) h
      refine ⟨k1, ?_, ?_, ?_⟩
      · rw [k2, ho]
        funext n
        show w.ora (n + (k + 1) + 1) = w.ora (n + (k + 1 + 1))
        rfl
      · rw [k3, hr, registerReads_append]
        simp [registerReads]
        omega
      · rw [k4, hs, ho]

/-- C5, the code at two failing inputs.  A poll of the software-reset register
for bits 7 to clear, against a service whose register reads always succeed and
always show 7 (so the condition holds on no read), with a tick counter that
advances by one per read.
(1) The counter shows `0xFFFFFFFF - 20000` when the first `udelay(10000)` starts:
the target becomes `0xFFFFFFFF`, which no counter value exceeds, so for every
spin budget the call has not returned, and it has made only one register read.
(2) The counter shows `0xFFFFF000` when the first `udelay(10000)` starts: each
target wraps around to a small value, every `udelay` returns on its second
counter read, and the call returns -1 after ten register reads with the counter
having advanced by 19 ticks in all, where ten delays of 10 ms take 200000. -/
theorem waithcr_stuck_or_rushed_at_counter_wrap :
    (∀ fuel : Nat,
      (__sdio_waithcr fuel SDIOHCR_SOFTWARERESET 1 1 7
        { s := startedSession 0, trace := [], ora := busyService,
          timer := counterFrom 4294947295 }).result? = none ∧
      registerReads (__sdio_waithcr fuel SDIOHCR_SOFTWARERESET 1 1 7
        { s := startedSession 0, trace := [], ora := busyService,
          timer := counterFrom 4294947295 }).world.trace = 1) ∧
    (__sdio_waithcr 1 SDIOHCR_SOFTWARERESET 1 1 7
        { s := startedSession 0, trace := [], ora := busyService,
          timer := counterFrom 4294963200 }).result? = some (-1) ∧
    registerReads (__sdio_waithcr 1 SDIOHCR_SOFTWARERESET 1 1 7
        { s := startedSession 0, trace := [], ora := busyService,
          timer := counterFrom 4294963200 }).world.trace = 10 ∧
    timerReads (__sdio_waithcr 1 SDIOHCR_SOFTWARERESET 1 1 7
        { s := startedSession 0, trace := [], ora := busyService,
          timer := counterFrom 4294963200 }).world.trace
      = List.range' 4294963200 20 := by
  refine ⟨?_, by decide, by decide, by decide⟩
  intro fuel
  have hu : udelay fuel 10000
      (__sdio_gethcr SDIOHCR_SOFTWARERESET 1
        { s := startedSession 0, trace := [], ora := busyService,
          timer := counterFrom 4294947295 }).2.2
      = udelay_spin 4294967295 fuel
          (get_timer (__sdio_gethcr SDIOHCR_SOFTWARERESET 1
            { s := startedSession 0, trace := [], ora := busyService,
              timer := counterFrom 4294947295 }).2.2).2 := rfl
  have hstuck := udelay_spin_stuck fuel
    (get_timer (__sdio_gethcr SDIOHCR_SOFTWARERESET 1
      { s := startedSession 0, trace := [], ora := busyService,
        timer := counterFrom 4294947295 }).2.2).2
  have hframe := (udelay_spin_frame 4294967295 fuel
    (get_timer (__sdio_gethcr SDIOHCR_SOFTWARERESET 1
      { s := startedSession 0, trace := [], ora := busyService,
        timer := counterFrom 4294947295 }).2.2).2).2.2
  have hstep : __sdio_waithcr fuel SDIOHCR_SOFTWARERESET 1 1 7
      { s := startedSession 0, trace := [], ora := busyService,
        timer := counterFrom 4294947295 }
      = match udelay fuel 10000
          (__sdio_gethcr SDIOHCR_SOFTWARERESET 1
            { s := startedSession 0, trace := [], ora := busyService,
              timer := counterFrom 4294947295 }).2.2 with
        | Run.spinning w1 => Run.spinning w1
        | Run.done _ w1 =>
          __sdio_waithcr_loop fuel SDIOHCR_SOFTWARERESET 1 1 7 9 w1 := rfl
  rw [hstep, hu]
  cases hs : udelay_spin 4294967295 fuel
    (get_timer (__sdio_gethcr SDIOHCR_SOFTWARERESET 1
      { s := startedSession 0, trace := [], ora := busyService,
        timer := counterFrom 4294947295 }).2.2).2 with
  | done u w1 =>
    rw [hs] at hstuck
    simp at hstuck
  | spinning w1 =>
    rw [hs] at hframe
    simp only [world_spinning] at hframe
    refine ⟨rfl, ?_⟩
    show registerReads w1.trace = 1
    rw [hframe]
    decide

/-! ## The spin budget only matters while spinning -/

theorem udelay_spin_mono (tmr f k : Nat) (w w1 : World) (u : Unit)
    (h : udelay_spin tmr f w = Run.done u w1) :
    udelay_spin tmr (f + k) w = Run.done u w1 := by
  induction f generalizing w with
  | zero =>
    rw [udelay_spin] at h
    cases h
  | succ f ih =>
    have hf : f + 1 + k = (f + k) + 1 := by omega
    rw [hf, udelay_spin]
    rw [udelay_spin] at h
    split
    · rename_i hle
      rw [if_pos hle] at h
      exact ih _ h
    · rename_i hle
      rw [if_neg hle] at h
      exact h

theorem waithcr_loop_mono (f k reg size unset mask tries : Nat) (w w1 : World) (r : Int)
    (h : __sdio_waithcr_loop f reg size unset mask tries w = Run.done r w1) :
    __sdio_waithcr_loop (f + k) reg size unset mask tries w = Run.done r w1 := by
  induction tries generalizing w with
  | zero =>
    rw [__sdio_waithcr_loop] at h ⊢
    exact h
  | succ t ih =>
    rw [__sdio_waithcr_loop] at h ⊢
    split
    · rename_i h1
      rw [if_pos h1] at h
      exact h
    · rename_i h1
      rw [if_neg h1] at h
      split
      · rename_i h2
        rw [if_pos h2] at h
        exact h
      · rename_i h2
        rw [if_neg h2] at h
        cases hu : udelay f 10000 (__sdio_gethcr reg size w).2.2 with
        | spinning w2 =>
          rw [hu] at h
          cases h
        | done u w2 =>
          rw [hu] at h
          have hu' : udelay (f + k) 10000 (__sdio_gethcr reg size w).2.2 = Run.done u w2 :=
            udelay_spin_mono _ f k _ _ u hu
          rw [hu']
          exact ih w2 h

theorem resetBranch_mono (f k : Nat) (w w1 : World) (b : Bool)
    (h : resetBranch f w = Run.done b w1) : resetBranch (f + k) w = Run.done b w1 := by
  simp only [resetBranch] at h ⊢
  cases hw : __sdio_waithcr f SDIOHCR_SOFTWARERESET 1 1 7
      (__sdio_sethcr SDIOHCR_SOFTWARERESET 1 7 w).2 with
  | spinning w2 =>
    rw [hw] at h
    cases h
  | done r w2 =>
    rw [hw] at h
    rw [show __sdio_waithcr (f + k) SDIOHCR_SOFTWARERESET 1 1 7
        (__sdio_sethcr SDIOHCR_SOFTWARERESET 1 7 w).2 = Run.done r w2 from
      waithcr_loop_mono f k _ _ _ _ 10 _ _ r hw]
    exact h

theorem initio_mono (f k : Nat) (w w1 : World) (b : Bool)
    (h : __sd0_initio f w = Run.done b w1) : __sd0_initio (f + k) w = Run.done b w1 := by
  rw [initio_unfold] at h ⊢
  split
  · rename_i h1
    rw [if_pos h1] at h
    exact h
  · rename_i h1
    rw [if_neg h1] at h
    split
    · rename_i h2
      rw [if_pos h2] at h
      exact h
    · rename_i h2
      rw [if_neg h2] at h
      exact resetBranch_mono f k _ _ b h

/-- A start-up that returns with some spin budget returns the same result and
world with every larger budget. -/
theorem startup_mono (f k : Nat) (w w1 : World) (b : Bool)
    (h : sdio_Startup f w = Run.done b w1) : sdio_Startup (f + k) w = Run.done b w1 := by
  unfold sdio_Startup at h ⊢
  split
  · rename_i h1
    rw [if_pos h1] at h
    exact h
  · rename_i h1
    rw [if_neg h1] at h
    dsimp only at h ⊢
    split
    · rename_i h2
      rw [if_pos h2] at h
      exact h
    · rename_i h2
      rw [if_neg h2] at h
      cases hi : __sd0_initio f
          { (ipc (IpcCall.os_open _sd0_fs 0) w).2 with
            s := { (ipc (IpcCall.os_open _sd0_fs 0) w).2.s with
              __sd0_fd := (ipc (IpcCall.os_open _sd0_fs 0) w).1.ret } } with
      | spinning w2 =>
        rw [hi] at h
        cases h
      | done b2 w2 =>
        rw [hi] at h
        rw [initio_mono f k _ _ b2 hi]
        exact h

/-! ## C10: a failing get-status call during bring-up -/

/-- C10, the code at the failing input: the get-status call of a start-up
returns -1 (a transport error) while every other call succeeds.  The negative
code is read as a status word with every bit set, so `sdio_Startup`, whatever
its spin budget, returns true, marks the session initialized and flags the card
high-capacity. -/
theorem startup_accepts_failed_getstatus (fuel : Nat) :
    (sdio_Startup fuel (World.initial statusErrorService (counterFrom 0))).world.trace.get? 2
      = some (Event.ipc (IpcCall.os_ioctl 3 IOCTL_SDIO_GETSTATUS IoBuf.null 0 IoBuf.scratch 4)
          (-1)) ∧
    (sdio_Startup fuel (World.initial statusErrorService (counterFrom 0))).result?
      = some true ∧
    (sdio_Startup fuel (World.initial statusErrorService (counterFrom 0))).world.s
      = { __sd0_fd := 3, __sd0_rca := 0x1234, __sd0_initialized := 1, __sd0_sdhc := 1,
          __sdio_initialized := 1 } := by
  have h0 : (sdio_Startup 0 (World.initial statusErrorService (counterFrom 0))).result?
      = some true := by decide
  have e : sdio_Startup fuel (World.initial statusErrorService (counterFrom 0))
      = sdio_Startup 0 (World.initial statusErrorService (counterFrom 0)) := by
    cases h : sdio_Startup 0 (World.initial statusErrorService (counterFrom 0)) with
    | spinning w1 =>
      rw [h] at h0
      simp at h0
    | done b w1 =>
      have hm := startup_mono 0 fuel _ _ _ h
      rw [Nat.zero_add] at hm
      exact hm
  rw [e]
  exact ⟨by decide, by decide, by decide⟩

end WiiSD
